import Mathlib

/-!
# trebuchet: registry authentication, repository provisioning and push workflow

A shallow embedding of the parts of `internal/ecr/client.go`,
`internal/docker/client.go` and `cmd/push.go` that carry logic, together with
the Go standard library routines they call (`encoding/base64`, `strings`,
`fmt`).

Go strings are byte sequences, so they are embedded as lists of bytes.
Pairs `(value, error)` returned by Go functions are embedded as pairs whose
second component is `Option Error` (`none` is Go's `nil` error).
-/

set_option linter.dupNamespace false

/-- One byte of a Go string. -/
abbrev Byte := Fin 256

/-- Go's `string`: an immutable sequence of bytes. -/
abbrev GoString := List Byte

/-- The bytes of an ASCII literal of the source text (every literal in the
embedded code is ASCII, so a character is one byte). -/
def ascii (s : String) : GoString := s.toList.map (fun c => Fin.ofNat c.toNat)

/-- Decimal digits of a natural number, most significant first (fuel bounded). -/
def decimalDigits : Nat → Nat → List Byte → List Byte
  | 0, _, acc => acc
  | fuel + 1, n, acc =>
    let acc := (Fin.ofNat (48 + n % 10) : Byte) :: acc
    if n / 10 = 0 then acc else decimalDigits fuel (n / 10) acc

/-- Go's `error` values that occur in the embedded code.
`errorString` is what `errors.New` and `fmt.Errorf` (without `%w`) build,
`CorruptInputError` is `base64.CorruptInputError`, and `foreign` stands for any
error value produced by a collaborator (the AWS or Docker client); its `id`
separates distinct values that print the same text. -/
inductive Error where
  | errorString (s : GoString)
  | CorruptInputError (n : Nat)
  | foreign (id : Nat) (msg : GoString)
deriving DecidableEq, Repr

namespace fmt

/-- The verb `%d` applied to a non-negative `int`. -/
def verb_d (n : Nat) : GoString := decimalDigits (n + 1) n []

end fmt

/-- The method `Error()` of an error value. -/
def Error.Error : Error → GoString
  | .errorString s => s
  | .CorruptInputError n => ascii "illegal base64 data at input byte " ++ fmt.verb_d n
  | .foreign _ msg => msg

namespace fmt

/-- The verb `%s` applied to an operand of interface type `error`: a nil
interface prints as `%!s(<nil>)`, any other value prints its `Error()` text. -/
def verb_s : Option Error → GoString
  | none => ascii "%!s(<nil>)"
  | some e => e.Error

end fmt

/-! ## `encoding/base64`, `StdEncoding` -/

namespace base64

/-- The alphabet of `StdEncoding`. -/
def encodeStd : GoString :=
  ascii "ABCDEFGHIJKLMNOPQRSTUVWXYZabcdefghijklmnopqrstuvwxyz0123456789+/"

/-- `StdPadding`, the character `=`. -/
def padChar : Byte := 61

/-- The table `enc.encode`, indexed by a six-bit value. -/
def encode (i : Nat) : Byte := encodeStd.getD i 0

/-- The table `enc.decodeMap` as `NewEncoding` fills it: `0xFF` everywhere,
then the index of each alphabet character. -/
def decodeMap (c : Byte) : Nat := if c ∈ encodeStd then encodeStd.indexOf c else 0xFF

/-- `(*Encoding).Encode` for `StdEncoding`: three bytes become four characters,
a final group of one or two bytes is padded with `=`. -/
def Encode : GoString → GoString
  | b0 :: b1 :: b2 :: rest =>
    let val := (b0.val <<< 16) ||| (b1.val <<< 8) ||| b2.val
    encode ((val >>> 18) &&& 0x3F) :: encode ((val >>> 12) &&& 0x3F) ::
      encode ((val >>> 6) &&& 0x3F) :: encode (val &&& 0x3F) :: Encode rest
  | [b0, b1] =>
    let val := (b0.val <<< 16) ||| (b1.val <<< 8)
    [encode ((val >>> 18) &&& 0x3F), encode ((val >>> 12) &&& 0x3F),
      encode ((val >>> 6) &&& 0x3F), padChar]
  | [b0] =>
    let val := b0.val <<< 16
    [encode ((val >>> 18) &&& 0x3F), encode ((val >>> 12) &&& 0x3F), padChar, padChar]
  | [] => []

/-- `(*Encoding).EncodeToString`. -/
def EncodeToString (src : GoString) : GoString := Encode src

/-- What one call of `decodeQuantum` hands back: the unread input `src[nsi:]`,
the new read position `nsi`, the bytes written to `dst` and the error. -/
structure Quantum where
  rest : GoString
  nsi : Nat
  out : GoString
  err : Option Error
deriving DecidableEq, Repr

/-- The loops `for si < len(src) && (src[si] == '\n' || src[si] == '\r') { si++ }`. -/
def skipNewlines : GoString → Nat → GoString × Nat
  | [], si => ([], si)
  | c :: tl, si => if c = 10 ∨ c = 13 then skipNewlines tl (si + 1) else (c :: tl, si)

/-- The tail of `decodeQuantum`: the collected six-bit values (missing ones are
zero) are packed into 24 bits and the first `dlen - 1` bytes are written.
`StdEncoding` is not strict, so no check of the unused bits is made. -/
def convert (dbuf : List Nat) (dlen : Nat) : GoString :=
  let val := (dbuf.getD 0 0 <<< 18) ||| (dbuf.getD 1 0 <<< 12) ||| (dbuf.getD 2 0 <<< 6)
    ||| dbuf.getD 3 0
  let b2 : Byte := Fin.ofNat (val >>> 0)
  let b1 : Byte := Fin.ofNat (val >>> 8)
  let b0 : Byte := Fin.ofNat (val >>> 16)
  match dlen with
  | 4 => [b0, b1, b2]
  | 3 => [b0, b1]
  | 2 => [b0]
  | _ => []

/-- The body of `decodeQuantum`: `src` is the unread input `src[si:]`, `j` the
number of six-bit values collected so far in `dbuf`. -/
def decodeQuantumLoop : GoString → Nat → Nat → List Nat → Quantum
  | [], si, j, dbuf =>
    if 4 ≤ j then ⟨[], si, convert dbuf 4, none⟩
    else if j = 0 then ⟨[], si, [], none⟩
    else ⟨[], si, [], some (.CorruptInputError (si - j))⟩
  | c :: tl, si0, j, dbuf =>
    if 4 ≤ j then ⟨c :: tl, si0, convert dbuf 4, none⟩
    else
      let si := si0 + 1
      let out := decodeMap c
      if out ≠ 0xFF then decodeQuantumLoop tl si (j + 1) (dbuf ++ [out])
      else if c = 10 ∨ c = 13 then decodeQuantumLoop tl si j dbuf
      else if c ≠ padChar then ⟨tl, si, [], some (.CorruptInputError (si - 1))⟩
      else if j < 2 then ⟨tl, si, [], some (.CorruptInputError (si - 1))⟩
      else if j = 2 then
        match skipNewlines tl si with
        | ([], si1) => ⟨[], si1, [], some (.CorruptInputError si1)⟩
        | (c1 :: tl1, si1) =>
          if c1 ≠ padChar then ⟨c1 :: tl1, si1, [], some (.CorruptInputError (si1 - 1))⟩
          else
            match skipNewlines tl1 (si1 + 1) with
            | ([], si2) => ⟨[], si2, convert dbuf j, none⟩
            | (c2 :: tl2, si2) =>
              ⟨c2 :: tl2, si2, convert dbuf j, some (.CorruptInputError si2)⟩
      else
        match skipNewlines tl si with
        | ([], si2) => ⟨[], si2, convert dbuf j, none⟩
        | (c2 :: tl2, si2) => ⟨c2 :: tl2, si2, convert dbuf j, some (.CorruptInputError si2)⟩

/-- `(*Encoding).decodeQuantum(dst, src, si)`. -/
def decodeQuantum (src : GoString) (si : Nat) : Quantum := decodeQuantumLoop src si 0 []

/-- The loop `for si < len(src) { si, ninc, err = enc.decodeQuantum(...) ... }`
of `(*Encoding).Decode`. The two fast paths before it decode eight or four
alphabet characters at once and fall back to `decodeQuantum` otherwise; they
produce the same bytes, so the embedding runs `decodeQuantum` throughout.
The first argument bounds the number of iterations. -/
def decodeLoop : Nat → GoString → Nat → GoString × Option Error
  | 0, _, _ => ([], none)
  | fuel + 1, src, si =>
    if src = [] then ([], none)
    else
      let q := decodeQuantum src si
      match q.err with
      | some e => (q.out, some e)
      | none =>
        let r := decodeLoop fuel q.rest q.nsi
        (q.out ++ r.1, r.2)

/-- `(*Encoding).DecodeString` for `StdEncoding`: the decoded bytes `dbuf[:n]`
and the error. Every quantum reads at least one character, so `len(s)`
iterations always suffice. -/
def DecodeString (s : GoString) : GoString × Option Error := decodeLoop s.length s 0

end base64

/-! ## `strings` -/

namespace strings

/-- `strings.Contains(s, sep)` for a one-byte `sep`. -/
def Contains (s : GoString) (sep : Byte) : Bool := decide (sep ∈ s)

/-- `strings.Index(s, sep)` for a one-byte `sep`: `-1` when absent. -/
def Index (s : GoString) (sep : Byte) : Int := if sep ∈ s then (s.indexOf sep : Nat) else -1

/-- `strings.Count(s, sep)` for a one-byte `sep`. -/
def Count (s : GoString) (sep : Byte) : Nat := s.count sep

/-- The loop of `genSplit`: the first argument is `n - i`, the number of
separators still to be cut at. -/
def genSplitLoop (sep : Byte) (sepSave : Nat) : Nat → GoString → List GoString
  | 0, s => [s]
  | k + 1, s =>
    let m := Index s sep
    if m < 0 then [s]
    else s.take (m.toNat + sepSave) :: genSplitLoop sep sepSave k (s.drop (m.toNat + 1))

/-- `strings.genSplit(s, sep, sepSave, n)` for a one-byte separator, the only
kind the repository passes (the branch for an empty separator is thereby out
of reach). -/
def genSplit (s : GoString) (sep : Byte) (sepSave : Nat) (n : Int) : List GoString :=
  if n = 0 then []
  else
    let n : Int := if n < 0 then (Count s sep : Int) + 1 else n
    let n : Int := if n > (s.length : Int) + 1 then (s.length : Int) + 1 else n
    genSplitLoop sep sepSave (n - 1).toNat s

/-- `strings.SplitN(s, sep, n)`. -/
def SplitN (s : GoString) (sep : Byte) (n : Int) : List GoString := genSplit s sep 0 n

/-- `strings.SplitAfter(s, sep)`. -/
def SplitAfter (s : GoString) (sep : Byte) : List GoString := genSplit s sep 1 (-1)

/-- `strings.Split(s, sep)`. -/
def Split (s : GoString) (sep : Byte) : List GoString := genSplit s sep 0 (-1)

end strings

/-- The separator `":"` of the source, a one-byte string. -/
abbrev colon : Byte := 58

/-! ## `internal/ecr` -/

namespace ecr

/-- `type RegistryAuth struct`. -/
structure RegistryAuth where
  ProxyEndpoint : GoString
  Username : GoString
  Password : GoString
deriving DecidableEq, Repr

/-- `func extractToken(token string, proxyEndpoint string) (*RegistryAuth, error)`. -/
def extractToken (token : GoString) (proxyEndpoint : GoString) :
    Option RegistryAuth × Option Error :=
  match base64.DecodeString token with
  | (_, some err) => (none, some err)
  | (decodedToken, none) =>
    let parts := strings.SplitN decodedToken colon 2
    if parts.length < 2 then
      (none, some (.errorString
        (ascii "invalid token: expected two parts, got " ++ fmt.verb_d parts.length)))
    else
      (some
        { ProxyEndpoint := proxyEndpoint
          Username := parts.getD 0 []
          Password := parts.getD 1 [] }, none)

/-- `type Client interface`: the four operations of the registry control
plane. A method may read and change the state of the world `σ`; it returns
its Go results together with the state it leaves behind. -/
structure Client (σ : Type) where
  RepositoryExists : GoString → σ → (Bool × Option Error) × σ
  CreateRepository : GoString → σ → Option Error × σ
  GetRepositoryURI : GoString → σ → (GoString × Option Error) × σ
  GetAuthorizationToken : σ → (Option RegistryAuth × Option Error) × σ

/-- Lines 136 to 141 of `SetupRepository`: the URI lookup that ends both
branches. -/
def SetupRepository.lookup {σ : Type} (c : Client σ) (repository : GoString) (s : σ) :
    (GoString × Option Error) × σ :=
  match c.GetRepositoryURI repository s with
  | ((_, some err), s) => (([], some err), s)
  | ((repositoryURI, none), s) => ((repositoryURI, none), s)

/-- `func SetupRepository(c Client, repository string) (string, error)`. -/
def SetupRepository {σ : Type} (c : Client σ) (repository : GoString) (s : σ) :
    (GoString × Option Error) × σ :=
  match c.RepositoryExists repository s with
  | ((_, some err), s) => (([], some err), s)
  | ((repositoryExists, none), s) =>
    if !repositoryExists then
      match c.CreateRepository repository s with
      | (some err, s) => (([], some err), s)
      | (none, s) => SetupRepository.lookup c repository s
    else SetupRepository.lookup c repository s

/-- A call made on a `Client`, with its arguments. -/
inductive Call where
  | RepositoryExists (repository : GoString)
  | CreateRepository (repository : GoString)
  | GetRepositoryURI (repository : GoString)
  | GetAuthorizationToken
deriving DecidableEq, Repr

/-- The client `c` with a recorder in front of it: every call is answered by
`c` and appended to a log kept beside the state of `c`. -/
def Client.traced {σ : Type} (c : Client σ) : Client (σ × List Call) where
  RepositoryExists := fun repository st =>
    let r := c.RepositoryExists repository st.1
    (r.1, (r.2, st.2 ++ [Call.RepositoryExists repository]))
  CreateRepository := fun repository st =>
    let r := c.CreateRepository repository st.1
    (r.1, (r.2, st.2 ++ [Call.CreateRepository repository]))
  GetRepositoryURI := fun repository st =>
    let r := c.GetRepositoryURI repository st.1
    (r.1, (r.2, st.2 ++ [Call.GetRepositoryURI repository]))
  GetAuthorizationToken := fun st =>
    let r := c.GetAuthorizationToken st.1
    (r.1, (r.2, st.2 ++ [Call.GetAuthorizationToken]))

end ecr

/-! ## `internal/docker` -/

namespace docker

/-- `type Client interface`: the operations of the local container runtime. -/
structure Client (σ : Type) where
  ImageExists : GoString → σ → Option Error × σ
  ImagePush : GoString → ecr.RegistryAuth → σ → Option Error × σ
  ImageTag : GoString → GoString → σ → Option Error × σ
  ImageRemove : GoString → σ → Option Error × σ

/-- `func getFullECRImageReference(repositoryURI string, image string) string`.
The index expression `[1]` is in range whenever the guard holds
(`SplitAfter_length_of_mem`). -/
def getFullECRImageReference (repositoryURI : GoString) (image : GoString) : GoString :=
  let tag : GoString :=
    if strings.Contains image colon then (strings.SplitAfter image colon).getD 1 [] else []
  if tag ≠ [] then repositoryURI ++ [colon] ++ tag else repositoryURI

/-- The deferred function of `TagAndPush`: it runs when the function returns,
reads the named result `err` and overwrites it. -/
def TagAndPush.deferred {σ : Type} (dockerClient : Client σ) (fullRepositoryURI : GoString)
    (err : Option Error) (s : σ) : Option Error × σ :=
  match dockerClient.ImageRemove fullRepositoryURI s with
  | (removeErr, s) =>
    if err ≠ none then
      (some (.errorString (fmt.verb_s err ++ ascii ": " ++ fmt.verb_s removeErr)), s)
    else (removeErr, s)

/-- `func TagAndPush(dockerClient Client, image string, repositoryURI string,
auth ecr.RegistryAuth) (err error)`. The first return happens before the
`defer` statement is reached; the two later ones run the deferred function. -/
def TagAndPush {σ : Type} (dockerClient : Client σ) (image : GoString)
    (repositoryURI : GoString) (auth : ecr.RegistryAuth) (s : σ) : Option Error × σ :=
  let fullRepositoryURI := getFullECRImageReference repositoryURI image
  match dockerClient.ImageTag image fullRepositoryURI s with
  | (some err, s) => (some err, s)
  | (none, s) =>
    match dockerClient.ImagePush fullRepositoryURI auth s with
    | (some err, s) => TagAndPush.deferred dockerClient fullRepositoryURI (some err) s
    | (none, s) => TagAndPush.deferred dockerClient fullRepositoryURI none s

/-- A call made on a `Client`, with its arguments. -/
inductive Call where
  | ImageExists (image : GoString)
  | ImagePush (image : GoString) (auth : ecr.RegistryAuth)
  | ImageTag (source : GoString) (target : GoString)
  | ImageRemove (image : GoString)
deriving DecidableEq, Repr

/-- The client `c` with a recorder in front of it: every call is answered by
`c` and appended to a log kept beside the state of `c`. -/
def Client.traced {σ : Type} (c : Client σ) : Client (σ × List Call) where
  ImageExists := fun image st =>
    let r := c.ImageExists image st.1
    (r.1, (r.2, st.2 ++ [Call.ImageExists image]))
  ImagePush := fun image auth st =>
    let r := c.ImagePush image auth st.1
    (r.1, (r.2, st.2 ++ [Call.ImagePush image auth]))
  ImageTag := fun source target st =>
    let r := c.ImageTag source target st.1
    (r.1, (r.2, st.2 ++ [Call.ImageTag source target]))
  ImageRemove := fun image st =>
    let r := c.ImageRemove image st.1
    (r.1, (r.2, st.2 ++ [Call.ImageRemove image]))

end docker

/-! ## `cmd` -/

namespace cmd

/-- `func parseDockerRepositoryFromImage(image string) string`. The index
expression `[0]` is always in range: `Split` never returns an empty slice for
a non-empty separator. -/
def parseDockerRepositoryFromImage (image : GoString) : GoString :=
  if strings.Contains image colon then (strings.Split image colon).getD 0 [] else image

end cmd

/-! ## `internal/ecr`: client configuration and authorization token -/

namespace aws

/-- A non-nil value of the interface `aws.CredentialsProvider`, told apart by
its dynamic type: `*stscreds.AssumeRoleProvider`, the repository's
`*sts.CredentialsProvider` (the pointer may be nil, `none`), or any other
provider. -/
inductive CredentialsProvider where
  | AssumeRoleProvider (id : Nat)
  | stsCredentialsProvider (ptr : Option Nat)
  | other (id : Nat)
deriving DecidableEq, Repr

/-- `aws.Config`: the two fields `getClientConfig` reads and writes, and `Rest`
for all the fields it leaves alone. `Credentials` is an interface value,
`none` when nil. -/
structure Config where
  Region : GoString
  Credentials : Option CredentialsProvider
  Rest : Nat
deriving DecidableEq, Repr

/-- The zero value `aws.Config{}`. -/
def Config.zero : Config := { Region := [], Credentials := none, Rest := 0 }

end aws

namespace external

/-- The options `getClientConfig` passes to the loader. -/
inductive Config where
  | WithSharedConfigProfile (profile : GoString)
deriving DecidableEq, Repr

end external

namespace ecr

/-- `ErrNoTokenOrProxyEndpoint`. -/
def ErrNoTokenOrProxyEndpoint : Error :=
  .errorString (ascii "no authorization token or proxy endpoint obtained when requesting token")

/-- `ErrNoCredentials`. -/
def ErrNoCredentials : Error := .errorString (ascii "no credentials provided")

/-- What `getClientConfig` works with: the `configLoader` argument, the method
`AssumeRole` of the `assumer` argument (it returns a `*sts.CredentialsProvider`,
`none` when nil), and `ResolveEndpoint` of the resolver that
`endpoints.NewDefaultResolver()` builds with `StrictMatching` set. The
endpoint table belongs to the AWS SDK, so the resolver is a parameter here;
the endpoint it returns is discarded by the caller and left out. -/
structure ConfigEnv (σ : Type) where
  configLoader : List external.Config → σ → (aws.Config × Option Error) × σ
  AssumeRole : aws.Config → GoString → σ → (Option Nat × Option Error) × σ
  ResolveEndpoint : GoString → GoString → σ → Option Error × σ

/-- Lines 163 to 174 of `getClientConfig`: the loader is called without options
when `profile` is empty, with the profile option otherwise. -/
def getClientConfig.load {σ : Type} (env : ConfigEnv σ) (profile : GoString) (s : σ) :
    (aws.Config × Option Error) × σ :=
  if profile = [] then env.configLoader [] s
  else env.configLoader [external.Config.WithSharedConfigProfile profile] s

/-- Line 180 to 183 of `getClientConfig`: a non-empty `region` overwrites
`cfg.Region`. -/
def getClientConfig.override (cfg : aws.Config) (region : GoString) : aws.Config :=
  if region ≠ [] then { cfg with Region := region } else cfg

/-- Lines 196 to 203 of `getClientConfig`: the region of `cfg` is resolved for
the service `api.ecr`. -/
def getClientConfig.validate {σ : Type} (env : ConfigEnv σ) (cfg : aws.Config) (s : σ) :
    (aws.Config × Option Error) × σ :=
  match env.ResolveEndpoint (ascii "api.ecr") cfg.Region s with
  | (some err, s) => ((aws.Config.zero, some err), s)
  | (none, s) => ((cfg, none), s)

/-- The type assertion `cfg.Credentials.(*stscreds.AssumeRoleProvider)`: its
second result `ok`. -/
def isAssumeRoleProvider : aws.CredentialsProvider → Bool
  | .AssumeRoleProvider _ => true
  | _ => false

/-- `func getClientConfig(region string, assumeRole string, profile string,
assumer sts.RoleAssumer, configLoader configLoaderFunc) (cfg aws.Config, err error)`. -/
def getClientConfig {σ : Type} (env : ConfigEnv σ) (region : GoString) (assumeRole : GoString)
    (profile : GoString) (s : σ) : (aws.Config × Option Error) × σ :=
  match getClientConfig.load env profile s with
  | ((_, some err), s) => ((aws.Config.zero, some err), s)
  | ((cfg, none), s) =>
    match cfg.Credentials with
    | none => ((aws.Config.zero, some ErrNoCredentials), s)
    | some credentials =>
      let cfg := getClientConfig.override cfg region
      if assumeRole ≠ [] ∧ ¬ isAssumeRoleProvider credentials then
        match env.AssumeRole cfg assumeRole s with
        | ((_, some err), s) => ((aws.Config.zero, some err), s)
        | ((newCredentials, none), s) =>
          getClientConfig.validate env
            { cfg with Credentials := some (.stsCredentialsProvider newCredentials) } s
      else getClientConfig.validate env cfg s

/-- A call made by `getClientConfig` on one of its collaborators. -/
inductive ConfigCall where
  | configLoader (configs : List external.Config)
  | AssumeRole (config : aws.Config) (assumeRole : GoString)
  | ResolveEndpoint (service : GoString) (region : GoString)
deriving DecidableEq, Repr

/-- Whether a recorded call is a call of `AssumeRole`. -/
def ConfigCall.isAssumeRole : ConfigCall → Bool
  | .AssumeRole _ _ => true
  | _ => false

/-- The collaborators `env` with a recorder in front of them. -/
def ConfigEnv.traced {σ : Type} (env : ConfigEnv σ) : ConfigEnv (σ × List ConfigCall) where
  configLoader := fun configs st =>
    let r := env.configLoader configs st.1
    (r.1, (r.2, st.2 ++ [ConfigCall.configLoader configs]))
  AssumeRole := fun config assumeRole st =>
    let r := env.AssumeRole config assumeRole st.1
    (r.1, (r.2, st.2 ++ [ConfigCall.AssumeRole config assumeRole]))
  ResolveEndpoint := fun service region st =>
    let r := env.ResolveEndpoint service region st.1
    (r.1, (r.2, st.2 ++ [ConfigCall.ResolveEndpoint service region]))

/-- One element of `AuthorizationData` in the response of the control plane:
the two `*string` fields the client reads, `none` when nil. -/
structure AuthorizationData where
  AuthorizationToken : Option GoString
  ProxyEndpoint : Option GoString
deriving DecidableEq, Repr

/-- `ecr.GetAuthorizationTokenResponse`, the part the client reads. -/
structure GetAuthorizationTokenResponse where
  AuthorizationData : List AuthorizationData
deriving DecidableEq, Repr

/-- A run-time panic of the Go program. -/
inductive Panic where
  | nilPointerDereference
  | indexOutOfRange
deriving DecidableEq, Repr

/-- `func (c *ecrClient) GetAuthorizationToken() (*RegistryAuth, error)`.
`Send` stands for `c.GetAuthorizationTokenRequest(...).Send(ctx)`. The index
expression `result.AuthorizationData[0]` and the two dereferences in the call
of `extractToken` (evaluated left to right) can panic, so the result is either
a panic or the Go results. -/
def ecrClient.GetAuthorizationToken {σ : Type}
    (Send : σ → (GetAuthorizationTokenResponse × Option Error) × σ) (s : σ) :
    Except Panic (Option RegistryAuth × Option Error) × σ :=
  match Send s with
  | ((_, some err), s) => (.ok (none, some err), s)
  | ((result, none), s) =>
    match result.AuthorizationData with
    | [] => (.error .indexOutOfRange, s)
    | authorizationData :: _ =>
      if authorizationData.ProxyEndpoint = none ∧ authorizationData.AuthorizationToken = none then
        (.ok (none, some ErrNoTokenOrProxyEndpoint), s)
      else
        match authorizationData.AuthorizationToken with
        | none => (.error .nilPointerDereference, s)
        | some token =>
          match authorizationData.ProxyEndpoint with
          | none => (.error .nilPointerDereference, s)
          | some proxyEndpoint =>
            match extractToken token proxyEndpoint with
            | (_, some err) => (.ok (none, some err), s)
            | (auth, none) => (.ok (auth, none), s)

end ecr

/-! ## Test doubles

The clients of the test files (`mockECRClient`, `mockDockerClient`): every
method ignores its arguments and returns the values it was set up with. -/

namespace ecr

/-- `mockECRClient` set up with `On("RepositoryExists", ...).Return(exists)`,
`On("CreateRepository", ...).Return(create)` and
`On("GetRepositoryURI", ...).Return(uri)`. -/
def mock (exist : Bool × Option Error) (create : Option Error) (uri : GoString × Option Error) :
    Client Unit where
  RepositoryExists := fun _ s => (exist, s)
  CreateRepository := fun _ s => (create, s)
  GetRepositoryURI := fun _ s => (uri, s)
  GetAuthorizationToken := fun s => ((none, some (.foreign 0 (ascii "not set up"))), s)

end ecr

namespace docker

/-- `mockDockerClient` set up with `On("ImageTag", ...).Return(tag)`,
`On("ImagePush", ...).Return(push)` and `On("ImageRemove", ...).Return(remove)`. -/
def mock (tag : Option Error) (push : Option Error) (remove : Option Error) : Client Unit where
  ImageExists := fun _ s => (none, s)
  ImagePush := fun _ _ s => (push, s)
  ImageTag := fun _ _ s => (tag, s)
  ImageRemove := fun _ s => (remove, s)

end docker

namespace ecr

/-- The collaborators of the tests of `getClientConfig`: a loader that returns
`loaded`, a `mockRoleAssumer` that returns `assumed`, and a resolver that
knows the regions for which `known` holds. -/
def mockEnv (loaded : aws.Config × Option Error) (assumed : Option Nat × Option Error)
    (known : GoString → Bool) : ConfigEnv Unit where
  configLoader := fun _ s => (loaded, s)
  AssumeRole := fun _ _ s => (assumed, s)
  ResolveEndpoint := fun _ region s =>
    (if known region then none else some (.foreign 3 (ascii "could not resolve endpoint")), s)

end ecr

/-! # Theorems -/

/-! ## `encoding/base64`: decoding inverts encoding -/

namespace base64

theorem or_eq_add_of_dvd (i x b : Nat) (hx : 2 ^ i ∣ x) (hb : b < 2 ^ i) : x ||| b = x + b := by
  obtain ⟨a, rfl⟩ := hx
  exact (Nat.mul_add_lt_is_or hb a).symm

theorem or_shift3 (b0 b1 b2 : Nat) (h1 : b1 < 256) (h2 : b2 < 256) :
    (b0 <<< 16) ||| (b1 <<< 8) ||| b2 = b0 * 65536 + b1 * 256 + b2 := by
  simp only [Nat.shiftLeft_eq]
  rw [or_eq_add_of_dvd 16 (b0 * 2 ^ 16) (b1 * 2 ^ 8) (Dvd.intro_left _ rfl) (by omega),
    or_eq_add_of_dvd 8 _ b2 (by omega) (by omega)]
  norm_num

theorem or_shift4 (a b c d : Nat) (hb : b < 64) (hc : c < 64) (hd : d < 64) :
    (a <<< 18) ||| (b <<< 12) ||| (c <<< 6) ||| d
      = a * 262144 + b * 4096 + c * 64 + d := by
  simp only [Nat.shiftLeft_eq]
  rw [or_eq_add_of_dvd 18 (a * 2 ^ 18) (b * 2 ^ 12) (Dvd.intro_left _ rfl) (by omega),
    or_eq_add_of_dvd 12 _ (c * 2 ^ 6) (by omega) (by omega),
    or_eq_add_of_dvd 6 _ d (by omega) (by omega)]
  norm_num

theorem and_63 (x : Nat) : x &&& 0x3F = x % 64 := Nat.and_pow_two_sub_one_eq_mod x 6

theorem decodeMap_encode : ∀ i : Fin 64, decodeMap (encode i.val) = i.val := by decide

theorem decodeMap_encode_lt {a : Nat} (h : a < 64) : decodeMap (encode a) = a :=
  decodeMap_encode ⟨a, h⟩

theorem decodeMap_padChar : decodeMap padChar = 0xFF := by decide

theorem decodeQuantumLoop_four (src : GoString) (si : Nat) (dbuf : List Nat) :
    decodeQuantumLoop src si 4 dbuf = ⟨src, si, convert dbuf 4, none⟩ := by
  cases src <;> simp [decodeQuantumLoop]

theorem decodeQuantum_full {a b c d : Nat} (ha : a < 64) (hb : b < 64) (hc : c < 64)
    (hd : d < 64) (tl : GoString) (si : Nat) :
    decodeQuantum (encode a :: encode b :: encode c :: encode d :: tl) si
      = ⟨tl, si + 4, convert [a, b, c, d] 4, none⟩ := by
  have na : a ≠ 255 := by omega
  have nb : b ≠ 255 := by omega
  have nc : c ≠ 255 := by omega
  have nd : d ≠ 255 := by omega
  simp [decodeQuantum, decodeQuantumLoop, decodeMap_encode_lt, ha, hb, hc, hd, na, nb, nc, nd,
    decodeQuantumLoop_four]

theorem decodeQuantum_pad1 {a b c : Nat} (ha : a < 64) (hb : b < 64) (hc : c < 64) (si : Nat) :
    decodeQuantum [encode a, encode b, encode c, padChar] si
      = ⟨[], si + 4, convert [a, b, c] 3, none⟩ := by
  have na : a ≠ 255 := by omega
  have nb : b ≠ 255 := by omega
  have nc : c ≠ 255 := by omega
  simp [decodeQuantum, decodeQuantumLoop, decodeMap_encode_lt, ha, hb, hc, na, nb, nc,
    decodeMap_padChar, skipNewlines]
  decide

theorem decodeQuantum_pad2 {a b : Nat} (ha : a < 64) (hb : b < 64) (si : Nat) :
    decodeQuantum [encode a, encode b, padChar, padChar] si
      = ⟨[], si + 4, convert [a, b] 2, none⟩ := by
  have na : a ≠ 255 := by omega
  have nb : b ≠ 255 := by omega
  have hp : ¬ (padChar = 10 ∨ padChar = 13) := by decide
  simp [decodeQuantum, decodeQuantumLoop, decodeMap_encode_lt, ha, hb, na, nb,
    decodeMap_padChar, skipNewlines, hp]

theorem convert_four (b0 b1 b2 : Byte) :
    convert
      [((((b0.val <<< 16) ||| (b1.val <<< 8) ||| b2.val) >>> 18) &&& 0x3F),
       ((((b0.val <<< 16) ||| (b1.val <<< 8) ||| b2.val) >>> 12) &&& 0x3F),
       ((((b0.val <<< 16) ||| (b1.val <<< 8) ||| b2.val) >>> 6) &&& 0x3F),
       (((b0.val <<< 16) ||| (b1.val <<< 8) ||| b2.val) &&& 0x3F)] 4 = [b0, b1, b2] := by
  have h0 := b0.isLt
  have h1 := b1.isLt
  have h2 := b2.isLt
  rw [or_shift3 _ _ _ h1 h2]
  simp only [convert, List.getD_cons_zero, List.getD_cons_succ, and_63, Nat.shiftRight_eq_div_pow]
  rw [or_shift4 _ _ _ _ (Nat.mod_lt _ (by norm_num)) (Nat.mod_lt _ (by norm_num))
    (Nat.mod_lt _ (by norm_num))]
  simp only [List.cons.injEq, and_true]
  refine ⟨?_, ?_, ?_⟩ <;> apply Fin.ext <;> simp [Fin.ofNat] <;> omega

theorem convert_three (b0 b1 : Byte) :
    convert
      [((((b0.val <<< 16) ||| (b1.val <<< 8)) >>> 18) &&& 0x3F),
       ((((b0.val <<< 16) ||| (b1.val <<< 8)) >>> 12) &&& 0x3F),
       ((((b0.val <<< 16) ||| (b1.val <<< 8)) >>> 6) &&& 0x3F)] 3 = [b0, b1] := by
  have h0 := b0.isLt
  have h1 := b1.isLt
  have e : (b0.val <<< 16) ||| (b1.val <<< 8) = b0.val * 65536 + b1.val * 256 := by
    have := or_shift3 b0.val b1.val 0 h1 (by norm_num)
    simpa using this
  rw [e]
  simp only [convert, List.getD_cons_zero, List.getD_cons_succ, List.getD_nil, and_63,
    Nat.shiftRight_eq_div_pow]
  rw [or_shift4 _ _ _ _ (Nat.mod_lt _ (by norm_num)) (Nat.mod_lt _ (by norm_num))
    (by norm_num)]
  simp only [List.cons.injEq, and_true]
  refine ⟨?_, ?_⟩ <;> apply Fin.ext <;> simp [Fin.ofNat] <;> omega

theorem convert_two (b0 : Byte) :
    convert [(((b0.val <<< 16) >>> 18) &&& 0x3F), (((b0.val <<< 16) >>> 12) &&& 0x3F)] 2
      = [b0] := by
  have h0 := b0.isLt
  simp only [convert, List.getD_cons_zero, List.getD_cons_succ, List.getD_nil, and_63,
    Nat.shiftRight_eq_div_pow]
  rw [or_shift4 _ _ _ _ (Nat.mod_lt _ (by norm_num)) (by norm_num) (by norm_num)]
  simp only [List.cons.injEq, and_true]
  apply Fin.ext
  simp [Fin.ofNat, Nat.shiftLeft_eq]
  omega

theorem and_63_lt (x : Nat) : x &&& 0x3F < 64 := by
  rw [and_63]; exact Nat.mod_lt _ (by norm_num)

/-- Decoding an encoding gives the bytes back, whatever the start position and
for every iteration bound that is at least the length of the encoding. -/
theorem decodeLoop_Encode (bs : GoString) :
    ∀ (fuel si : Nat), (Encode bs).length ≤ fuel → decodeLoop fuel (Encode bs) si = (bs, none) := by
  induction bs using Encode.induct with
  | case1 b0 b1 b2 rest ih =>
    intro fuel si hf
    simp only [Encode, List.length_cons] at hf ⊢
    obtain ⟨f, rfl⟩ : ∃ f, fuel = f + 1 := ⟨fuel - 1, by omega⟩
    rw [decodeLoop]
    simp only [reduceCtorEq, if_false]
    rw [decodeQuantum_full (and_63_lt _) (and_63_lt _) (and_63_lt _) (and_63_lt _)]
    simp only
    rw [ih f (si + 4) (by omega), convert_four]
    rfl
  | case2 b0 b1 =>
    intro fuel si hf
    simp only [Encode, List.length_cons] at hf ⊢
    obtain ⟨f, rfl⟩ : ∃ f, fuel = f + 1 := ⟨fuel - 1, by omega⟩
    rw [decodeLoop]
    simp only [reduceCtorEq, if_false]
    rw [decodeQuantum_pad1 (and_63_lt _) (and_63_lt _) (and_63_lt _)]
    simp only
    rw [convert_three]
    cases f <;> simp [decodeLoop]
  | case3 b0 =>
    intro fuel si hf
    simp only [Encode, List.length_cons] at hf ⊢
    obtain ⟨f, rfl⟩ : ∃ f, fuel = f + 1 := ⟨fuel - 1, by omega⟩
    rw [decodeLoop]
    simp only [reduceCtorEq, if_false]
    rw [decodeQuantum_pad2 (and_63_lt _) (and_63_lt _)]
    simp only
    rw [convert_two]
    cases f <;> simp [decodeLoop]
  | case4 =>
    intro fuel si _
    cases fuel <;> simp [Encode, decodeLoop]

theorem DecodeString_EncodeToString (bs : GoString) :
    DecodeString (EncodeToString bs) = (bs, none) :=
  decodeLoop_Encode bs _ 0 (le_refl _)

end base64

/-! ## `strings`: splitting at the first separator -/

namespace strings

theorem Index_of_not_mem {s : GoString} {sep : Byte} (h : sep ∉ s) : Index s sep = -1 := by
  simp [Index, h]

theorem Index_append_cons {u : GoString} {sep : Byte} (h : sep ∉ u) (p : GoString) :
    Index (u ++ sep :: p) sep = (u.length : Int) := by
  have hm : sep ∈ u ++ sep :: p := by simp
  simp only [Index, hm, if_true]
  congr 1
  induction u with
  | nil => simp
  | cons a u ih =>
    have ha : a ≠ sep := fun e => h (by simp [e])
    have hu : sep ∉ u := fun e => h (by simp [e])
    simp [List.indexOf_cons, ha, ih hu (by simp)]

theorem genSplitLoop_of_not_mem {s : GoString} {sep : Byte} (h : sep ∉ s) (sepSave k : Nat) :
    genSplitLoop sep sepSave k s = [s] := by
  cases k <;> simp [genSplitLoop, Index_of_not_mem h]

theorem SplitN_two_of_not_mem {s : GoString} {sep : Byte} (h : sep ∉ s) :
    SplitN s sep 2 = [s] := by
  unfold SplitN genSplit
  simp only [show (2 : Int) ≠ 0 by decide, if_false, genSplitLoop_of_not_mem h]

theorem SplitN_two_append_cons {u : GoString} {sep : Byte} (h : sep ∉ u) (p : GoString) :
    SplitN (u ++ sep :: p) sep 2 = [u, p] := by
  unfold SplitN genSplit
  have hl : ¬ ((2 : Int) > ((u ++ sep :: p).length : Int) + 1) := by
    simp only [List.length_append, List.length_cons]; push_cast; omega
  simp only [show (2 : Int) ≠ 0 by decide, if_false, show ¬ ((2 : Int) < 0) by decide, hl]
  simp [genSplitLoop, Index_append_cons h]

theorem genSplitLoop_length_pos (sep : Byte) (sepSave k : Nat) (s : GoString) :
    0 < (genSplitLoop sep sepSave k s).length := by
  cases k with
  | zero => simp [genSplitLoop]
  | succ k =>
    unfold genSplitLoop
    dsimp only
    split <;> simp

theorem Index_nonneg_of_mem {s : GoString} {sep : Byte} (h : sep ∈ s) : ¬ Index s sep < 0 := by
  simp [Index, h]

/-- The index expression `strings.SplitAfter(image, ":")[1]` of
`getFullECRImageReference` is in range whenever `strings.Contains(image, ":")`. -/
theorem SplitAfter_length_of_mem {s : GoString} {sep : Byte} (h : sep ∈ s) :
    2 ≤ (SplitAfter s sep).length := by
  have hc : 0 < Count s sep := List.count_pos_iff.mpr h
  have hl : Count s sep ≤ s.length := List.count_le_length _ _
  unfold SplitAfter genSplit
  simp only [show (-1 : Int) ≠ 0 by decide, if_false, show ((-1 : Int) < 0) by decide, if_true]
  have hk : ∃ k, (((if ((Count s sep : Int) + 1) > (s.length : Int) + 1 then (s.length : Int) + 1
      else (Count s sep : Int) + 1) - 1).toNat) = k + 1 := by
    split
    · exact ⟨s.length - 1, by have : 0 < s.length := by omega
                              omega⟩
    · exact ⟨Count s sep - 1, by omega⟩
  obtain ⟨k, hk⟩ := hk
  rw [hk, genSplitLoop]
  simp only [Index_nonneg_of_mem h, if_false, List.length_cons]
  have := genSplitLoop_length_pos sep 1 k (List.drop ((Index s sep).toNat + 1) s)
  omega

/-- The index expression `strings.Split(image, ":")[0]` of
`parseDockerRepositoryFromImage` is always in range. -/
theorem Split_length_pos (s : GoString) (sep : Byte) : 0 < (Split s sep).length := by
  unfold Split genSplit
  simp only [show (-1 : Int) ≠ 0 by decide, if_false]
  exact genSplitLoop_length_pos _ _ _ _

end strings

/-! ## `encoding/base64`: the iteration bound of `DecodeString` is never reached -/

namespace base64

theorem skipNewlines_length_le (s : GoString) (si : Nat) :
    (skipNewlines s si).1.length ≤ s.length := by
  induction s generalizing si with
  | nil => simp [skipNewlines]
  | cons c tl ih =>
    unfold skipNewlines
    split
    · exact Nat.le_succ_of_le (ih _)
    · exact le_refl _

theorem decodeQuantumLoop_rest_le (src : GoString) :
    ∀ (si j : Nat) (dbuf : List Nat), (decodeQuantumLoop src si j dbuf).rest.length ≤ src.length := by
  induction src with
  | nil =>
    intro si j dbuf
    unfold decodeQuantumLoop
    split_ifs <;> simp
  | cons c tl ih =>
    intro si j dbuf
    unfold decodeQuantumLoop
    dsimp only
    have hs := fun si => skipNewlines_length_le tl si
    split
    · simp
    split
    · exact Nat.le_succ_of_le (ih _ _ _)
    split
    · exact Nat.le_succ_of_le (ih _ _ _)
    split
    · simp
    split
    · simp
    split
    · split
      · simp
      · rename_i c1 tl1 si1 heq
        have h1 : (c1 :: tl1).length ≤ tl.length := by
          have := hs (si + 1); rw [heq] at this; exact this
        split
        · simp only [List.length_cons] at h1 ⊢; omega
        · have h2 := skipNewlines_length_le tl1 (si1 + 1)
          split
          · simp
          · rename_i c2 tl2 si2 heq2
            rw [heq2] at h2
            simp only [List.length_cons] at h1 h2 ⊢; omega
    · split
      · simp
      · rename_i c2 tl2 si2 heq
        have h1 : (c2 :: tl2).length ≤ tl.length := by
          have := hs (si + 1); rw [heq] at this; exact this
        simp only [List.length_cons] at h1 ⊢; omega

theorem decodeQuantum_rest_lt (c : Byte) (tl : GoString) (si : Nat) :
    (decodeQuantum (c :: tl) si).rest.length ≤ tl.length := by
  unfold decodeQuantum decodeQuantumLoop
  dsimp only
  have hs := fun si => skipNewlines_length_le tl si
  have ih := decodeQuantumLoop_rest_le tl
  split
  · omega
  split
  · exact ih _ _ _
  split
  · exact ih _ _ _
  split
  · simp
  split
  · simp
  split
  · omega
  · omega

/-- Any two iteration bounds that are at least the length of the input give
the same result: the bound `len(s)` used by `DecodeString` is never what stops
the loop. -/
theorem decodeLoop_fuel (f1 : Nat) :
    ∀ (f2 : Nat) (src : GoString) (si : Nat), src.length ≤ f1 → src.length ≤ f2 →
      decodeLoop f1 src si = decodeLoop f2 src si := by
  induction f1 with
  | zero =>
    intro f2 src si h1 _
    have : src = [] := List.length_eq_zero.mp (Nat.le_zero.mp h1)
    subst this
    cases f2 <;> simp [decodeLoop]
  | succ f1 ih =>
    intro f2 src si h1 h2
    cases src with
    | nil => cases f2 <;> simp [decodeLoop]
    | cons c tl =>
      obtain ⟨g, rfl⟩ : ∃ g, f2 = g + 1 := ⟨f2 - 1, by simp at h2; omega⟩
      have hr := decodeQuantum_rest_lt c tl si
      simp only [List.length_cons] at h1 h2
      simp only [decodeLoop, reduceCtorEq, if_false]
      split
      · rfl
      · rw [ih g _ _ (by omega) (by omega)]

end base64

/-! ## `extractToken` -/

/-- C1: for every username without `:`, every password and every proxy endpoint,
`extractToken` applied to the standard base64 encoding of
`username + ":" + password` succeeds (nil error) and returns the `RegistryAuth`
with exactly that proxy endpoint, username and password. -/
theorem extractToken_roundtrip (username password proxyEndpoint : GoString)
    (h : colon ∉ username) :
    ecr.extractToken (base64.EncodeToString (username ++ ascii ":" ++ password)) proxyEndpoint
      = (some { ProxyEndpoint := proxyEndpoint, Username := username, Password := password },
          none) := by
  have e : username ++ ascii ":" ++ password = username ++ colon :: password := by
    show username ++ [colon] ++ password = _
    simp
  unfold ecr.extractToken
  rw [base64.DecodeString_EncodeToString, e]
  simp [strings.SplitN_two_append_cons h]

/-- The token of `TestEcrClient_ExtractToken_ReturnsValidToken` is the encoding
of `AWS:ecrregistrycredentials`; it decodes to user `AWS` and password
`ecrregistrycredentials`, also when the password carries further colons. -/
theorem extractToken_roundtrip_witness :
    colon ∉ ascii "AWS" ∧
    base64.EncodeToString (ascii "AWS" ++ ascii ":" ++ ascii "ecrregistrycredentials")
      = ascii "QVdTOmVjcnJlZ2lzdHJ5Y3JlZGVudGlhbHM=" ∧
    ecr.extractToken
        (base64.EncodeToString (ascii "AWS" ++ ascii ":" ++ ascii "ecrregistrycredentials")) []
      = (some { ProxyEndpoint := [], Username := ascii "AWS",
                Password := ascii "ecrregistrycredentials" }, none) ∧
    ecr.extractToken (base64.EncodeToString (ascii "AWS" ++ ascii ":" ++ ascii "a:b:")) []
      = (some { ProxyEndpoint := [], Username := ascii "AWS", Password := ascii "a:b:" }, none) :=
  ⟨by decide, by decide,
    extractToken_roundtrip (ascii "AWS") (ascii "ecrregistrycredentials") [] (by decide),
    extractToken_roundtrip (ascii "AWS") (ascii "a:b:") [] (by decide)⟩

/-- C2: for every token that `StdEncoding.DecodeString` accepts (nil error) and
whose decoded bytes contain no `:`, the empty payload included, `extractToken`
returns a nil `*RegistryAuth` and the error built by `fmt.Errorf` whose text is
`invalid token: expected two parts, got 1`. -/
theorem extractToken_no_separator (token decoded proxyEndpoint : GoString)
    (hdec : base64.DecodeString token = (decoded, none)) (hsep : colon ∉ decoded) :
    ecr.extractToken token proxyEndpoint
        = (none, some (.errorString (ascii "invalid token: expected two parts, got 1"))) ∧
      (Error.errorString (ascii "invalid token: expected two parts, got 1")).Error
        = ascii "invalid token: expected two parts, got 1" := by
  refine ⟨?_, rfl⟩
  unfold ecr.extractToken
  rw [hdec]
  simp only [strings.SplitN_two_of_not_mem hsep, List.length_singleton, Nat.one_lt_ofNat,
    if_true]
  rfl

/-- The token of `TestEcrClient_ExtractToken_ReturnsInvalidTokenErrorOnWrongNumberOfParts`
(the encoding of `AWSecrregistrycredentials`) and the empty token are both
rejected with `got 1`. -/
theorem extractToken_no_separator_witness :
    (ecr.extractToken (ascii "QVdTZWNycmVnaXN0cnljcmVkZW50aWFscw==") []
        = (none, some (.errorString (ascii "invalid token: expected two parts, got 1")))) ∧
    (ecr.extractToken [] (ascii "endpoint")
        = (none, some (.errorString (ascii "invalid token: expected two parts, got 1")))) :=
  ⟨(extractToken_no_separator (ascii "QVdTZWNycmVnaXN0cnljcmVkZW50aWFscw==")
      (ascii "AWSecrregistrycredentials") [] (by decide) (by decide)).1,
   (extractToken_no_separator [] [] (ascii "endpoint") (by decide) (by decide)).1⟩

/-! ## `SetupRepository` -/

/-- Recording the calls does not change what `SetupRepository` returns nor the
state the client is left in. -/
theorem SetupRepository_traced {σ : Type} (c : ecr.Client σ) (repository : GoString) (s : σ)
    (log : List ecr.Call) :
    (ecr.SetupRepository c.traced repository (s, log)).1 = (ecr.SetupRepository c repository s).1 ∧
    (ecr.SetupRepository c.traced repository (s, log)).2.1
      = (ecr.SetupRepository c repository s).2 := by
  unfold ecr.SetupRepository ecr.SetupRepository.lookup ecr.Client.traced
  dsimp only
  rcases h1 : c.RepositoryExists repository s with ⟨⟨b, _ | e1⟩, s1⟩
  · cases b
    · dsimp only [Bool.not_false, if_true]
      rcases h2 : c.CreateRepository repository s1 with ⟨_ | e2, s2⟩
      · rcases h3 : c.GetRepositoryURI repository s2 with ⟨⟨u, _ | e3⟩, s3⟩ <;> simp [h3]
      · simp
    · rcases h3 : c.GetRepositoryURI repository s1 with ⟨⟨u, _ | e3⟩, s3⟩ <;> simp [h3]
  · simp

/-- C3, as the code has it: when `RepositoryExists(name)` returns `(true, nil)`,
`SetupRepository` makes exactly two calls, `RepositoryExists(name)` and then
`GetRepositoryURI(name)`, and never `CreateRepository`; it returns `(uri, nil)`
when the lookup returned `(uri, nil)`, and `("", e)` when the lookup returned
the error `e`. -/
theorem SetupRepository_exists_no_create {σ : Type} (c : ecr.Client σ) (repository : GoString)
    (s s1 : σ) (hex : c.RepositoryExists repository s = ((true, none), s1)) :
    (ecr.SetupRepository c.traced repository (s, [])).2
        = ((c.GetRepositoryURI repository s1).2,
            [ecr.Call.RepositoryExists repository, ecr.Call.GetRepositoryURI repository]) ∧
      (∀ uri, (c.GetRepositoryURI repository s1).1 = (uri, none) →
        (ecr.SetupRepository c.traced repository (s, [])).1 = (uri, none)) ∧
      (∀ uri e, (c.GetRepositoryURI repository s1).1 = (uri, some e) →
        (ecr.SetupRepository c.traced repository (s, [])).1 = ([], some e)) := by
  unfold ecr.SetupRepository ecr.SetupRepository.lookup ecr.Client.traced
  simp only [hex]
  rcases h3 : c.GetRepositoryURI repository s1 with ⟨⟨u, _ | e3⟩, s3⟩ <;> simp

/-- The test `TestEcrClient_SetupRepository_DoesNotCreateRepositoryWhenRepositoryExists`:
two calls, no create, result `("someurl", nil)`. -/
theorem SetupRepository_exists_no_create_witness :
    (ecr.SetupRepository (ecr.mock (true, none) none (ascii "someurl", none)).traced
        (ascii "myrepository") ((), [])).2
      = ((), [ecr.Call.RepositoryExists (ascii "myrepository"),
              ecr.Call.GetRepositoryURI (ascii "myrepository")]) ∧
    (ecr.SetupRepository (ecr.mock (true, none) none (ascii "someurl", none)).traced
        (ascii "myrepository") ((), [])).1 = (ascii "someurl", none) :=
  have h := SetupRepository_exists_no_create (ecr.mock (true, none) none (ascii "someurl", none))
    (ascii "myrepository") () () rfl
  ⟨h.1, h.2.1 (ascii "someurl") rfl⟩

/-- C3 as stated fails: a client whose `GetRepositoryURI` returns a non-empty
string together with an error gets `("", err)` from `SetupRepository`, not the
pair the lookup returned. -/
theorem SetupRepository_exists_result_counterexample :
    (ecr.mock (true, none) none (ascii "partial", some (.foreign 1 (ascii "error")))).RepositoryExists
        (ascii "myrepository") () = ((true, none), ()) ∧
    ((ecr.mock (true, none) none (ascii "partial", some (.foreign 1 (ascii "error")))).GetRepositoryURI
        (ascii "myrepository") ()).1 = (ascii "partial", some (.foreign 1 (ascii "error"))) ∧
    (ecr.SetupRepository
        (ecr.mock (true, none) none (ascii "partial", some (.foreign 1 (ascii "error"))))
        (ascii "myrepository") ()).1 = ([], some (.foreign 1 (ascii "error"))) ∧
    (ecr.SetupRepository
        (ecr.mock (true, none) none (ascii "partial", some (.foreign 1 (ascii "error"))))
        (ascii "myrepository") ()).1
      ≠ ((ecr.mock (true, none) none
            (ascii "partial", some (.foreign 1 (ascii "error")))).GetRepositoryURI
          (ascii "myrepository") ()).1 := by
  decide

/-- C4: when `RepositoryExists(name)` returns `(false, nil)` and
`CreateRepository(name)` returns nil, `SetupRepository` calls, in this order and
nothing else, `RepositoryExists(name)`, `CreateRepository(name)` once, and
`GetRepositoryURI(name)`; when that lookup returns `(uri, nil)` the result is
`(uri, nil)`. -/
theorem SetupRepository_creates_once {σ : Type} (c : ecr.Client σ) (repository : GoString)
    (s s1 s2 : σ) (hex : c.RepositoryExists repository s = ((false, none), s1))
    (hcr : c.CreateRepository repository s1 = (none, s2)) :
    (ecr.SetupRepository c.traced repository (s, [])).2
        = ((c.GetRepositoryURI repository s2).2,
            [ecr.Call.RepositoryExists repository, ecr.Call.CreateRepository repository,
             ecr.Call.GetRepositoryURI repository]) ∧
      (∀ uri, (c.GetRepositoryURI repository s2).1 = (uri, none) →
        (ecr.SetupRepository c.traced repository (s, [])).1 = (uri, none)) := by
  unfold ecr.SetupRepository ecr.SetupRepository.lookup ecr.Client.traced
  simp only [hex, hcr]
  rcases h3 : c.GetRepositoryURI repository s2 with ⟨⟨u, _ | e3⟩, s3⟩ <;> simp

/-- The test `TestEcrClient_SetupRepository_ReturnsValidRepositoryWhenNotExists`. -/
theorem SetupRepository_creates_once_witness :
    (ecr.SetupRepository (ecr.mock (false, none) none (ascii "someurl", none)).traced
        (ascii "myrepository") ((), [])).2
      = ((), [ecr.Call.RepositoryExists (ascii "myrepository"),
              ecr.Call.CreateRepository (ascii "myrepository"),
              ecr.Call.GetRepositoryURI (ascii "myrepository")]) ∧
    (ecr.SetupRepository (ecr.mock (false, none) none (ascii "someurl", none)).traced
        (ascii "myrepository") ((), [])).1 = (ascii "someurl", none) :=
  have h := SetupRepository_creates_once (ecr.mock (false, none) none (ascii "someurl", none))
    (ascii "myrepository") () () () rfl rfl
  ⟨h.1, h.2 (ascii "someurl") rfl⟩

/-- C5: `SetupRepository` stops at the first failing step and hands its error
back unchanged with an empty URI. (1) A failed existence check is the only
call made. (2) After a failed create no URI lookup is made. (3) A failed URI
lookup is the last call, whether or not a repository was created before it;
the state is the one the lookup left, nothing is undone. -/
theorem SetupRepository_short_circuit {σ : Type} (c : ecr.Client σ) (repository : GoString)
    (s s1 s2 s3 : σ) (b : Bool) (uri : GoString) (e : Error) :
    (c.RepositoryExists repository s = ((b, some e), s1) →
      ecr.SetupRepository c.traced repository (s, [])
        = (([], some e), (s1, [ecr.Call.RepositoryExists repository]))) ∧
    (c.RepositoryExists repository s = ((false, none), s1) →
      c.CreateRepository repository s1 = (some e, s2) →
      ecr.SetupRepository c.traced repository (s, [])
        = (([], some e), (s2, [ecr.Call.RepositoryExists repository,
                               ecr.Call.CreateRepository repository]))) ∧
    (c.RepositoryExists repository s = ((false, none), s1) →
      c.CreateRepository repository s1 = (none, s2) →
      c.GetRepositoryURI repository s2 = ((uri, some e), s3) →
      ecr.SetupRepository c.traced repository (s, [])
        = (([], some e), (s3, [ecr.Call.RepositoryExists repository,
                               ecr.Call.CreateRepository repository,
                               ecr.Call.GetRepositoryURI repository]))) ∧
    (c.RepositoryExists repository s = ((true, none), s1) →
      c.GetRepositoryURI repository s1 = ((uri, some e), s3) →
      ecr.SetupRepository c.traced repository (s, [])
        = (([], some e), (s3, [ecr.Call.RepositoryExists repository,
                               ecr.Call.GetRepositoryURI repository]))) := by
  refine ⟨?_, ?_, ?_, ?_⟩
  · intro hex
    simp [ecr.SetupRepository, ecr.Client.traced, hex]
  · intro hex hcr
    simp [ecr.SetupRepository, ecr.Client.traced, hex, hcr]
  · intro hex hcr huri
    simp [ecr.SetupRepository, ecr.SetupRepository.lookup, ecr.Client.traced, hex, hcr, huri]
  · intro hex huri
    simp [ecr.SetupRepository, ecr.SetupRepository.lookup, ecr.Client.traced, hex, huri]

/-- The three tests `TestEcrClient_SetupRepository_ReturnsErrorOn...`, and a
lookup that fails after a successful create. -/
theorem SetupRepository_short_circuit_witness :
    ecr.SetupRepository
        (ecr.mock (false, some (.foreign 1 (ascii "error"))) none (ascii "someurl", none)).traced
        (ascii "myrepository") ((), [])
      = (([], some (.foreign 1 (ascii "error"))),
          ((), [ecr.Call.RepositoryExists (ascii "myrepository")])) ∧
    ecr.SetupRepository
        (ecr.mock (false, none) (some (.foreign 1 (ascii "error"))) (ascii "someurl", none)).traced
        (ascii "myrepository") ((), [])
      = (([], some (.foreign 1 (ascii "error"))),
          ((), [ecr.Call.RepositoryExists (ascii "myrepository"),
                ecr.Call.CreateRepository (ascii "myrepository")])) ∧
    ecr.SetupRepository
        (ecr.mock (false, none) none ([], some (.foreign 1 (ascii "error")))).traced
        (ascii "myrepository") ((), [])
      = (([], some (.foreign 1 (ascii "error"))),
          ((), [ecr.Call.RepositoryExists (ascii "myrepository"),
                ecr.Call.CreateRepository (ascii "myrepository"),
                ecr.Call.GetRepositoryURI (ascii "myrepository")])) ∧
    ecr.SetupRepository
        (ecr.mock (true, none) none ([], some (.foreign 1 (ascii "error")))).traced
        (ascii "myrepository") ((), [])
      = (([], some (.foreign 1 (ascii "error"))),
          ((), [ecr.Call.RepositoryExists (ascii "myrepository"),
                ecr.Call.GetRepositoryURI (ascii "myrepository")])) :=
  ⟨(SetupRepository_short_circuit
      (ecr.mock (false, some (.foreign 1 (ascii "error"))) none (ascii "someurl", none))
      (ascii "myrepository") () () () () false [] (.foreign 1 (ascii "error"))).1 rfl,
   (SetupRepository_short_circuit
      (ecr.mock (false, none) (some (.foreign 1 (ascii "error"))) (ascii "someurl", none))
      (ascii "myrepository") () () () () false [] (.foreign 1 (ascii "error"))).2.1 rfl rfl,
   (SetupRepository_short_circuit
      (ecr.mock (false, none) none ([], some (.foreign 1 (ascii "error"))))
      (ascii "myrepository") () () () () false [] (.foreign 1 (ascii "error"))).2.2.1 rfl rfl rfl,
   (SetupRepository_short_circuit
      (ecr.mock (true, none) none ([], some (.foreign 1 (ascii "error"))))
      (ascii "myrepository") () () () () true [] (.foreign 1 (ascii "error"))).2.2.2 rfl rfl⟩

/-! ## `TagAndPush` -/

/-- Recording the calls does not change what `TagAndPush` returns nor the state
the client is left in. -/
theorem TagAndPush_traced {σ : Type} (c : docker.Client σ) (image repositoryURI : GoString)
    (auth : ecr.RegistryAuth) (s : σ) (log : List docker.Call) :
    (docker.TagAndPush c.traced image repositoryURI auth (s, log)).1
        = (docker.TagAndPush c image repositoryURI auth s).1 ∧
      (docker.TagAndPush c.traced image repositoryURI auth (s, log)).2.1
        = (docker.TagAndPush c image repositoryURI auth s).2 := by
  unfold docker.TagAndPush docker.TagAndPush.deferred docker.Client.traced
  dsimp only
  rcases h1 : c.ImageTag image (docker.getFullECRImageReference repositoryURI image) s
    with ⟨_ | e1, s1⟩
  · rcases h2 : c.ImagePush (docker.getFullECRImageReference repositoryURI image) auth s1
      with ⟨_ | e2, s2⟩ <;> simp [h2]
  · simp

/-- C6: whenever `ImageTag(image, full)` succeeds, with
`full = getFullECRImageReference(repositoryURI, image)`, the calls `TagAndPush`
makes are exactly `ImageTag(image, full)`, `ImagePush(full, auth)` and then
`ImageRemove(full)`, once each, whatever `ImagePush` returned. -/
theorem TagAndPush_always_removes {σ : Type} (c : docker.Client σ)
    (image repositoryURI : GoString) (auth : ecr.RegistryAuth) (s s1 : σ)
    (htag : c.ImageTag image (docker.getFullECRImageReference repositoryURI image) s
      = (none, s1)) :
    (docker.TagAndPush c.traced image repositoryURI auth (s, [])).2.2
      = [docker.Call.ImageTag image (docker.getFullECRImageReference repositoryURI image),
         docker.Call.ImagePush (docker.getFullECRImageReference repositoryURI image) auth,
         docker.Call.ImageRemove (docker.getFullECRImageReference repositoryURI image)] := by
  unfold docker.TagAndPush docker.TagAndPush.deferred docker.Client.traced
  simp only [htag]
  rcases h2 : c.ImagePush (docker.getFullECRImageReference repositoryURI image) auth s1
    with ⟨_ | e2, s2⟩ <;> simp [h2]

/-- With the image `image:v1.2.3` the reference that is tagged, pushed and
removed is `uri:v1.2.3`, after a successful push and after a failed one. -/
theorem TagAndPush_always_removes_witness :
    (docker.TagAndPush (docker.mock none none none).traced (ascii "image:v1.2.3") (ascii "uri")
        ⟨[], [], []⟩ ((), [])).2.2
      = [docker.Call.ImageTag (ascii "image:v1.2.3") (ascii "uri:v1.2.3"),
         docker.Call.ImagePush (ascii "uri:v1.2.3") ⟨[], [], []⟩,
         docker.Call.ImageRemove (ascii "uri:v1.2.3")] ∧
    (docker.TagAndPush (docker.mock none (some (.foreign 1 (ascii "error"))) none).traced
        (ascii "image:v1.2.3") (ascii "uri") ⟨[], [], []⟩ ((), [])).2.2
      = [docker.Call.ImageTag (ascii "image:v1.2.3") (ascii "uri:v1.2.3"),
         docker.Call.ImagePush (ascii "uri:v1.2.3") ⟨[], [], []⟩,
         docker.Call.ImageRemove (ascii "uri:v1.2.3")] :=
  ⟨TagAndPush_always_removes (docker.mock none none none) (ascii "image:v1.2.3") (ascii "uri")
      ⟨[], [], []⟩ () () rfl,
   TagAndPush_always_removes (docker.mock none (some (.foreign 1 (ascii "error"))) none)
      (ascii "image:v1.2.3") (ascii "uri") ⟨[], [], []⟩ () () rfl⟩

/-- C7: when the tag succeeds and both `ImagePush` and `ImageRemove` fail, with
texts `p` and `r`, `TagAndPush` returns a non-nil error whose text is
`p + ": " + r`. -/
theorem TagAndPush_both_fail {σ : Type} (c : docker.Client σ) (image repositoryURI : GoString)
    (auth : ecr.RegistryAuth) (s s1 s2 s3 : σ) (ep er : Error)
    (htag : c.ImageTag image (docker.getFullECRImageReference repositoryURI image) s
      = (none, s1))
    (hpush : c.ImagePush (docker.getFullECRImageReference repositoryURI image) auth s1
      = (some ep, s2))
    (hrem : c.ImageRemove (docker.getFullECRImageReference repositoryURI image) s2
      = (some er, s3)) :
    ∃ err, (docker.TagAndPush c image repositoryURI auth s).1 = some err ∧
      err.Error = ep.Error ++ ascii ": " ++ er.Error := by
  refine ⟨.errorString (ep.Error ++ ascii ": " ++ er.Error), ?_, rfl⟩
  simp [docker.TagAndPush, docker.TagAndPush.deferred, htag, hpush, hrem, fmt.verb_s]

/-- Push fails with `error`, cleanup fails with `cleanup`: the text is
`error: cleanup`. -/
theorem TagAndPush_both_fail_witness :
    ∃ err, (docker.TagAndPush
        (docker.mock none (some (.foreign 1 (ascii "error"))) (some (.foreign 2 (ascii "cleanup"))))
        [] [] ⟨[], [], []⟩ ()).1 = some err ∧
      err.Error = ascii "error: cleanup" :=
  TagAndPush_both_fail
    (docker.mock none (some (.foreign 1 (ascii "error"))) (some (.foreign 2 (ascii "cleanup"))))
    [] [] ⟨[], [], []⟩ () () () () (.foreign 1 (ascii "error")) (.foreign 2 (ascii "cleanup"))
    rfl rfl rfl

/-- C8: when the tag and the push both succeed, the error `TagAndPush` returns
is the very value `ImageRemove` returned: that error if cleanup fails, nil if
it succeeds. -/
theorem TagAndPush_push_ok {σ : Type} (c : docker.Client σ) (image repositoryURI : GoString)
    (auth : ecr.RegistryAuth) (s s1 s2 : σ)
    (htag : c.ImageTag image (docker.getFullECRImageReference repositoryURI image) s
      = (none, s1))
    (hpush : c.ImagePush (docker.getFullECRImageReference repositoryURI image) auth s1
      = (none, s2)) :
    (docker.TagAndPush c image repositoryURI auth s).1
      = (c.ImageRemove (docker.getFullECRImageReference repositoryURI image) s2).1 := by
  simp [docker.TagAndPush, docker.TagAndPush.deferred, htag, hpush]

/-- The test `TestDockerClient_Push_ValidPush` (nil), and a cleanup failure
after a good push (the cleanup error itself). -/
theorem TagAndPush_push_ok_witness :
    (docker.TagAndPush (docker.mock none none none) [] [] ⟨[], [], []⟩ ()).1 = none ∧
    (docker.TagAndPush (docker.mock none none (some (.foreign 2 (ascii "cleanup"))))
        [] [] ⟨[], [], []⟩ ()).1 = some (.foreign 2 (ascii "cleanup")) :=
  ⟨TagAndPush_push_ok (docker.mock none none none) [] [] ⟨[], [], []⟩ () () () rfl rfl,
   TagAndPush_push_ok (docker.mock none none (some (.foreign 2 (ascii "cleanup"))))
     [] [] ⟨[], [], []⟩ () () () rfl rfl⟩

/-- C9: when the tag succeeds, `ImagePush` fails with text `p` and `ImageRemove`
returns nil, `TagAndPush` returns a non-nil error whose text is
`p + ": %!s(<nil>)"`; it is not the push error and does not print as it. -/
theorem TagAndPush_push_fails_cleanup_ok {σ : Type} (c : docker.Client σ)
    (image repositoryURI : GoString) (auth : ecr.RegistryAuth) (s s1 s2 s3 : σ) (ep : Error)
    (htag : c.ImageTag image (docker.getFullECRImageReference repositoryURI image) s
      = (none, s1))
    (hpush : c.ImagePush (docker.getFullECRImageReference repositoryURI image) auth s1
      = (some ep, s2))
    (hrem : c.ImageRemove (docker.getFullECRImageReference repositoryURI image) s2
      = (none, s3)) :
    ∃ err, (docker.TagAndPush c image repositoryURI auth s).1 = some err ∧
      err.Error = ep.Error ++ ascii ": %!s(<nil>)" ∧ err.Error ≠ ep.Error ∧ err ≠ ep := by
  have htxt : (Error.errorString (ep.Error ++ ascii ": %!s(<nil>)")).Error ≠ ep.Error := by
    intro h
    have hl := congrArg List.length h
    simp [Error.Error, ascii] at hl
  refine ⟨.errorString (ep.Error ++ ascii ": %!s(<nil>)"), ?_, rfl, htxt, ?_⟩
  · have hcat : ascii ": " ++ ascii "%!s(<nil>)" = ascii ": %!s(<nil>)" := by decide
    simp [docker.TagAndPush, docker.TagAndPush.deferred, htag, hpush, hrem, fmt.verb_s, hcat]
  · intro h
    exact htxt (congrArg Error.Error h)

/-- The test `TestDockerClient_Push_ImagePushReturnsError`: the text is
`error: %!s(<nil>)`. -/
theorem TagAndPush_push_fails_cleanup_ok_witness :
    ∃ err, (docker.TagAndPush (docker.mock none (some (.foreign 1 (ascii "error"))) none)
        [] [] ⟨[], [], []⟩ ()).1 = some err ∧
      err.Error = ascii "error: %!s(<nil>)" :=
  have h := TagAndPush_push_fails_cleanup_ok
    (docker.mock none (some (.foreign 1 (ascii "error"))) none)
    [] [] ⟨[], [], []⟩ () () () () (.foreign 1 (ascii "error")) rfl rfl rfl
  h.elim fun err he => ⟨err, he.1, he.2.1⟩

/-- C10: when `ImageTag` fails with `e`, `TagAndPush` returns `e` itself and
the tag is the only call it makes: no push, no remove. -/
theorem TagAndPush_tag_fails {σ : Type} (c : docker.Client σ) (image repositoryURI : GoString)
    (auth : ecr.RegistryAuth) (s s1 : σ) (e : Error)
    (htag : c.ImageTag image (docker.getFullECRImageReference repositoryURI image) s
      = (some e, s1)) :
    docker.TagAndPush c.traced image repositoryURI auth (s, [])
      = (some e, (s1,
          [docker.Call.ImageTag image (docker.getFullECRImageReference repositoryURI image)])) := by
  simp [docker.TagAndPush, docker.Client.traced, htag]

/-- The test `TestDockerClient_Push_ImageTagReturnsError`. -/
theorem TagAndPush_tag_fails_witness :
    docker.TagAndPush (docker.mock (some (.foreign 1 (ascii "error"))) none none).traced [] []
        ⟨[], [], []⟩ ((), [])
      = (some (.foreign 1 (ascii "error")), ((), [docker.Call.ImageTag [] []])) :=
  TagAndPush_tag_fails (docker.mock (some (.foreign 1 (ascii "error"))) none none) [] []
    ⟨[], [], []⟩ () () (.foreign 1 (ascii "error")) rfl

/-! ## `strings`: splitting at every separator -/

namespace strings

theorem Count_append_cons {u : GoString} {sep : Byte} (h : sep ∉ u) (p : GoString) :
    Count (u ++ sep :: p) sep = Count p sep + 1 := by
  simp [Count, List.count_eq_zero.mpr h]

/-- The loop of `genSplit` cuts at the first separator when it may cut at all. -/
theorem genSplitLoop_append_cons {u : GoString} {sep : Byte} (h : sep ∉ u) (p : GoString)
    (sepSave k : Nat) :
    genSplitLoop sep sepSave (k + 1) (u ++ sep :: p)
      = (u ++ sep :: p).take (u.length + sepSave) :: genSplitLoop sep sepSave k p := by
  simp [genSplitLoop, Index_append_cons h]

/-- With a negative `n`, `genSplit` on a string that holds a separator cuts at
the first one and goes on with the rest. -/
theorem genSplit_append_cons {u : GoString} {sep : Byte} (h : sep ∉ u) (p : GoString)
    (sepSave : Nat) :
    genSplit (u ++ sep :: p) sep sepSave (-1)
      = (u ++ sep :: p).take (u.length + sepSave) :: genSplitLoop sep sepSave (Count p sep) p := by
  have hl : Count p sep ≤ p.length := List.count_le_length _ _
  unfold genSplit
  simp only [show (-1 : Int) ≠ 0 by decide, if_false, show ((-1 : Int) < 0) by decide, if_true,
    Count_append_cons h]
  have hk : (((if ((Count p sep + 1 : Nat) : Int) + 1 > ((u ++ sep :: p).length : Int) + 1
      then ((u ++ sep :: p).length : Int) + 1 else ((Count p sep + 1 : Nat) : Int) + 1) - 1).toNat)
      = Count p sep + 1 := by
    simp only [List.length_append, List.length_cons]
    split <;> omega
  rw [hk, genSplitLoop_append_cons h]

theorem SplitAfter_append_cons {u p : GoString} {sep : Byte} (hu : sep ∉ u) (hp : sep ∉ p) :
    SplitAfter (u ++ sep :: p) sep = [u ++ [sep], p] := by
  unfold SplitAfter
  rw [genSplit_append_cons hu, genSplitLoop_of_not_mem hp]
  simp [List.take_append_eq_append_take]

theorem Split_append_cons_head {u : GoString} {sep : Byte} (hu : sep ∉ u) (p : GoString) :
    (Split (u ++ sep :: p) sep).getD 0 [] = u := by
  unfold Split
  rw [genSplit_append_cons hu]
  simp

end strings

/-! ## `getFullECRImageReference` and `parseDockerRepositoryFromImage` -/

/-- C11, as the code has it: for every repository URI and every image reference
`NAME:TAG` in which neither `NAME` nor the non-empty `TAG` contains `:`,
`getFullECRImageReference(uri, NAME:TAG)` returns `uri + ":" + TAG`. -/
theorem getFullECRImageReference_tag (uri name tag : GoString) (hn : colon ∉ name)
    (ht : colon ∉ tag) (hne : tag ≠ []) :
    docker.getFullECRImageReference uri (name ++ ascii ":" ++ tag) = uri ++ ascii ":" ++ tag := by
  have e : name ++ ascii ":" ++ tag = name ++ colon :: tag := by
    show name ++ [colon] ++ tag = _
    simp
  have hm : colon ∈ name ++ colon :: tag := by simp
  rw [e]
  unfold docker.getFullECRImageReference
  simp only [strings.Contains, hm, decide_True, if_true, strings.SplitAfter_append_cons hn ht]
  simp only [List.getD_cons_succ, List.getD_cons_zero, ne_eq, hne, not_false_eq_true, if_true]
  rfl

/-- The test `...NotEmptySuffixReturnsBothURIAndSuffix`: `image:v1.2.3` gives
`https://ecr.com/repository/image:v1.2.3`. -/
theorem getFullECRImageReference_tag_witness :
    docker.getFullECRImageReference (ascii "https://ecr.com/repository/image")
        (ascii "image" ++ ascii ":" ++ ascii "v1.2.3")
      = ascii "https://ecr.com/repository/image" ++ ascii ":" ++ ascii "v1.2.3" :=
  getFullECRImageReference_tag (ascii "https://ecr.com/repository/image") (ascii "image")
    (ascii "v1.2.3") (by decide) (by decide) (by decide)

/-- C11 as stated fails when the text after the first `:` holds a further `:`:
for `image:v1:2` the name `image` has no `:` and the tag suffix `v1:2` is not
empty, yet the result is `uri:v1:`, not `uri:v1:2`. -/
theorem getFullECRImageReference_tag_counterexample :
    colon ∉ ascii "image" ∧ ascii "v1:2" ≠ [] ∧
    docker.getFullECRImageReference (ascii "uri") (ascii "image" ++ ascii ":" ++ ascii "v1:2")
      = ascii "uri:v1:" ∧
    docker.getFullECRImageReference (ascii "uri") (ascii "image" ++ ascii ":" ++ ascii "v1:2")
      ≠ ascii "uri" ++ ascii ":" ++ ascii "v1:2" := by
  decide

/-- C12: for every repository URI, `getFullECRImageReference` returns the URI
unchanged for the empty image reference, for every reference without `:`, and
for every reference whose only `:` is its last character. -/
theorem getFullECRImageReference_no_tag (uri name : GoString) :
    docker.getFullECRImageReference uri [] = uri ∧
    (colon ∉ name → docker.getFullECRImageReference uri name = uri) ∧
    (colon ∉ name → docker.getFullECRImageReference uri (name ++ ascii ":") = uri) := by
  have h1 : ∀ image : GoString, colon ∉ image →
      docker.getFullECRImageReference uri image = uri := by
    intro image h
    simp [docker.getFullECRImageReference, strings.Contains, h]
  refine ⟨h1 [] (by simp), h1 name, ?_⟩
  intro hn
  have e : name ++ ascii ":" = name ++ colon :: [] := rfl
  have hm : colon ∈ name ++ colon :: [] := by simp
  rw [e]
  unfold docker.getFullECRImageReference
  simp only [strings.Contains, hm, decide_True, if_true,
    strings.SplitAfter_append_cons hn (List.not_mem_nil _)]
  simp

/-- The test `...EmptySuffixReturnsOnlyURI`, an untagged name and a name that
ends in `:`. -/
theorem getFullECRImageReference_no_tag_witness :
    docker.getFullECRImageReference (ascii "https://ecr.com/repository/image") []
      = ascii "https://ecr.com/repository/image" ∧
    docker.getFullECRImageReference (ascii "https://ecr.com/repository/image") (ascii "image")
      = ascii "https://ecr.com/repository/image" ∧
    docker.getFullECRImageReference (ascii "https://ecr.com/repository/image")
        (ascii "image" ++ ascii ":")
      = ascii "https://ecr.com/repository/image" :=
  have h := getFullECRImageReference_no_tag (ascii "https://ecr.com/repository/image")
    (ascii "image")
  ⟨h.1, h.2.1 (by decide), h.2.2 (by decide)⟩

/-- C13: `parseDockerRepositoryFromImage` returns the whole string when it has
no `:` and the text before the first `:` otherwise; the result never contains
`:` and is a prefix of the input. -/
theorem parseDockerRepositoryFromImage_first_colon (image : GoString) :
    (colon ∉ image → cmd.parseDockerRepositoryFromImage image = image) ∧
    (∀ name rest : GoString, colon ∉ name → image = name ++ ascii ":" ++ rest →
      cmd.parseDockerRepositoryFromImage image = name) ∧
    colon ∉ cmd.parseDockerRepositoryFromImage image ∧
    cmd.parseDockerRepositoryFromImage image <+: image := by
  have h1 : colon ∉ image → cmd.parseDockerRepositoryFromImage image = image := by
    intro h
    simp [cmd.parseDockerRepositoryFromImage, strings.Contains, h]
  have h2 : ∀ name rest : GoString, colon ∉ name →
      cmd.parseDockerRepositoryFromImage (name ++ colon :: rest) = name := by
    intro name rest hn
    have hm : colon ∈ name ++ colon :: rest := by simp
    simp only [cmd.parseDockerRepositoryFromImage, strings.Contains, hm, decide_True, if_true,
      strings.Split_append_cons_head hn]
  refine ⟨h1, ?_, ?_, ?_⟩
  · intro name rest hn e
    subst e
    have e2 : name ++ ascii ":" ++ rest = name ++ colon :: rest := by
      show name ++ [colon] ++ rest = _
      simp
    rw [e2]
    exact h2 name rest hn
  · by_cases h : colon ∈ image
    · obtain ⟨name, rest, rfl, hn⟩ := List.eq_append_cons_of_mem h
      rw [h2 name rest hn]
      exact hn
    · rw [h1 h]
      exact h
  · by_cases h : colon ∈ image
    · obtain ⟨name, rest, rfl, hn⟩ := List.eq_append_cons_of_mem h
      rw [h2 name rest hn]
      exact List.prefix_append _ _
    · rw [h1 h]

/-- The examples of the `push` command: `helloworld:1.2.3` gives `helloworld`,
`hello/world:3.4-beta` gives `hello/world`, and a reference with two colons
is cut at the first. -/
theorem parseDockerRepositoryFromImage_first_colon_witness :
    cmd.parseDockerRepositoryFromImage (ascii "helloworld" ++ ascii ":" ++ ascii "1.2.3")
      = ascii "helloworld" ∧
    cmd.parseDockerRepositoryFromImage (ascii "hello/world" ++ ascii ":" ++ ascii "3.4-beta")
      = ascii "hello/world" ∧
    cmd.parseDockerRepositoryFromImage (ascii "a" ++ ascii ":" ++ ascii "b:c") = ascii "a" ∧
    cmd.parseDockerRepositoryFromImage (ascii "helloworld") = ascii "helloworld" :=
  ⟨(parseDockerRepositoryFromImage_first_colon _).2.1 (ascii "helloworld") (ascii "1.2.3")
      (by decide) rfl,
   (parseDockerRepositoryFromImage_first_colon _).2.1 (ascii "hello/world") (ascii "3.4-beta")
      (by decide) rfl,
   (parseDockerRepositoryFromImage_first_colon _).2.1 (ascii "a") (ascii "b:c") (by decide) rfl,
   (parseDockerRepositoryFromImage_first_colon _).1 (by decide)⟩

/-! ## `getClientConfig` -/

namespace ecr

/-- The options the loader is called with. -/
theorem load_traced {σ : Type} (env : ConfigEnv σ) (profile : GoString) (s : σ)
    (log : List ConfigCall) :
    getClientConfig.load env.traced profile (s, log)
      = ((getClientConfig.load env profile s).1,
          ((getClientConfig.load env profile s).2,
            log ++ [ConfigCall.configLoader
              (if profile = [] then [] else [external.Config.WithSharedConfigProfile profile])])) := by
  unfold getClientConfig.load ConfigEnv.traced
  split <;> rfl

theorem validate_traced {σ : Type} (env : ConfigEnv σ) (cfg : aws.Config) (s : σ)
    (log : List ConfigCall) :
    getClientConfig.validate env.traced cfg (s, log)
      = ((getClientConfig.validate env cfg s).1,
          ((getClientConfig.validate env cfg s).2,
            log ++ [ConfigCall.ResolveEndpoint (ascii "api.ecr") cfg.Region])) := by
  unfold getClientConfig.validate ConfigEnv.traced
  dsimp only
  rcases h : env.ResolveEndpoint (ascii "api.ecr") cfg.Region s with ⟨_ | e, s1⟩ <;> simp [h]

theorem validate_ok {σ : Type} (env : ConfigEnv σ) (cfg out : aws.Config) (s s' : σ)
    (h : getClientConfig.validate env cfg s = ((out, none), s')) : out = cfg := by
  unfold getClientConfig.validate at h
  rcases h1 : env.ResolveEndpoint (ascii "api.ecr") cfg.Region s with ⟨_ | e, s1⟩
  · simp [h1] at h
    exact h.1.symm
  · simp [h1] at h

theorem override_Region (cfg : aws.Config) (region : GoString) :
    (region ≠ [] → (getClientConfig.override cfg region).Region = region) ∧
    (region = [] → getClientConfig.override cfg region = cfg) ∧
    (getClientConfig.override cfg region).Credentials = cfg.Credentials ∧
    (getClientConfig.override cfg region).Rest = cfg.Rest := by
  unfold getClientConfig.override
  by_cases h : region = [] <;> simp [h]

/-- The recorded run when no role is assumed: the loader, then the resolver. -/
theorem run_no_assume {σ : Type} (env : ConfigEnv σ) (region assumeRole profile : GoString)
    (s s1 : σ) (loaded : aws.Config) (creds : aws.CredentialsProvider)
    (hl : getClientConfig.load env profile s = ((loaded, none), s1))
    (hc : loaded.Credentials = some creds)
    (h : assumeRole = [] ∨ isAssumeRoleProvider creds = true) :
    getClientConfig env.traced region assumeRole profile (s, [])
      = ((getClientConfig.validate env (getClientConfig.override loaded region) s1).1,
          ((getClientConfig.validate env (getClientConfig.override loaded region) s1).2,
            [ConfigCall.configLoader
                (if profile = [] then [] else [external.Config.WithSharedConfigProfile profile]),
             ConfigCall.ResolveEndpoint (ascii "api.ecr")
                (getClientConfig.override loaded region).Region])) := by
  have hn : ¬ (assumeRole ≠ [] ∧ ¬ isAssumeRoleProvider creds = true) := by
    rcases h with h | h <;> simp [h]
  unfold getClientConfig
  rw [load_traced, hl]
  simp only [hc, hn, if_false, validate_traced, List.nil_append, List.singleton_append]

/-- The recorded run when the role is assumed: the loader, the assumer, then
the resolver on the configuration that carries the new credentials. -/
theorem run_assume_ok {σ : Type} (env : ConfigEnv σ) (region assumeRole profile : GoString)
    (s s1 s2 : σ) (loaded : aws.Config) (creds : aws.CredentialsProvider) (p : Option Nat)
    (hl : getClientConfig.load env profile s = ((loaded, none), s1))
    (hc : loaded.Credentials = some creds)
    (hr : assumeRole ≠ []) (hp : isAssumeRoleProvider creds = false)
    (ha : env.AssumeRole (getClientConfig.override loaded region) assumeRole s1
      = ((p, none), s2)) :
    getClientConfig env.traced region assumeRole profile (s, [])
      = ((getClientConfig.validate env
            { getClientConfig.override loaded region with
              Credentials := some (.stsCredentialsProvider p) } s2).1,
          ((getClientConfig.validate env
            { getClientConfig.override loaded region with
              Credentials := some (.stsCredentialsProvider p) } s2).2,
            [ConfigCall.configLoader
                (if profile = [] then [] else [external.Config.WithSharedConfigProfile profile]),
             ConfigCall.AssumeRole (getClientConfig.override loaded region) assumeRole,
             ConfigCall.ResolveEndpoint (ascii "api.ecr")
                (getClientConfig.override loaded region).Region])) := by
  have hy : assumeRole ≠ [] ∧ ¬ isAssumeRoleProvider creds = true := by simp [hr, hp]
  unfold getClientConfig
  rw [load_traced, hl]
  simp only [hc]
  rw [if_pos hy]
  have e : env.traced.AssumeRole (getClientConfig.override loaded region) assumeRole
      (s1, [] ++ [ConfigCall.configLoader
        (if profile = [] then [] else [external.Config.WithSharedConfigProfile profile])])
      = ((p, none), (s2, [ConfigCall.configLoader
          (if profile = [] then [] else [external.Config.WithSharedConfigProfile profile]),
         ConfigCall.AssumeRole (getClientConfig.override loaded region) assumeRole])) := by
    simp [ConfigEnv.traced, ha]
  rw [e]
  simp only [validate_traced]
  rfl

/-- The recorded run when the assumer fails: the loader and the assumer, no
resolver. -/
theorem run_assume_error {σ : Type} (env : ConfigEnv σ) (region assumeRole profile : GoString)
    (s s1 s2 : σ) (loaded : aws.Config) (creds : aws.CredentialsProvider) (p : Option Nat)
    (e : Error)
    (hl : getClientConfig.load env profile s = ((loaded, none), s1))
    (hc : loaded.Credentials = some creds)
    (hr : assumeRole ≠ []) (hp : isAssumeRoleProvider creds = false)
    (ha : env.AssumeRole (getClientConfig.override loaded region) assumeRole s1
      = ((p, some e), s2)) :
    getClientConfig env.traced region assumeRole profile (s, [])
      = ((aws.Config.zero, some e),
          (s2,
            [ConfigCall.configLoader
                (if profile = [] then [] else [external.Config.WithSharedConfigProfile profile]),
             ConfigCall.AssumeRole (getClientConfig.override loaded region) assumeRole])) := by
  have hy : assumeRole ≠ [] ∧ ¬ isAssumeRoleProvider creds = true := by simp [hr, hp]
  unfold getClientConfig
  rw [load_traced, hl]
  simp only [hc]
  rw [if_pos hy]
  have e : env.traced.AssumeRole (getClientConfig.override loaded region) assumeRole
      (s1, [] ++ [ConfigCall.configLoader
        (if profile = [] then [] else [external.Config.WithSharedConfigProfile profile])])
      = ((p, some e), (s2, [ConfigCall.configLoader
          (if profile = [] then [] else [external.Config.WithSharedConfigProfile profile]),
         ConfigCall.AssumeRole (getClientConfig.override loaded region) assumeRole])) := by
    simp [ConfigEnv.traced, ha]
  rw [e]

/-- The recorded run when the loader fails or brings no credentials: the
loader is the only call, and the result is an error. -/
theorem run_load_failure {σ : Type} (env : ConfigEnv σ) (region assumeRole profile : GoString)
    (s : σ)
    (h : (getClientConfig.load env profile s).1.2 ≠ none ∨
      (getClientConfig.load env profile s).1.1.Credentials = none) :
    (getClientConfig env.traced region assumeRole profile (s, [])).1.2 ≠ none := by
  unfold getClientConfig
  rw [load_traced]
  rcases hl : getClientConfig.load env profile s with ⟨⟨loaded, _ | e⟩, s1⟩
  · rw [hl] at h
    have hc : loaded.Credentials = none := by simpa using h
    simp [hc]
  · simp

theorem validate_fst_ok {σ : Type} (env : ConfigEnv σ) (cfg out : aws.Config) (s : σ)
    (h : (getClientConfig.validate env cfg s).1 = (out, none)) : out = cfg := by
  unfold getClientConfig.validate at h
  rcases h1 : env.ResolveEndpoint (ascii "api.ecr") cfg.Region s with ⟨_ | e, s1⟩
  · simp [h1] at h
    exact h.symm
  · simp [h1] at h

/-- A successful run, taken apart: the loader succeeded and brought
credentials, and the configuration returned is the one handed to the resolver,
whose region is that of the loaded configuration after the override. -/
theorem run_ok_inv {σ : Type} (env : ConfigEnv σ) (region assumeRole profile : GoString)
    (s : σ) (cfg : aws.Config) (s' : σ × List ConfigCall)
    (hok : getClientConfig env.traced region assumeRole profile (s, []) = ((cfg, none), s')) :
    ∃ pre, s'.2 = pre ++ [ConfigCall.ResolveEndpoint (ascii "api.ecr") cfg.Region] ∧
      (∀ service r, ConfigCall.ResolveEndpoint service r ∉ pre) ∧
      cfg.Region
        = (getClientConfig.override (getClientConfig.load env profile s).1.1 region).Region := by
  rcases hl : getClientConfig.load env profile s with ⟨⟨loaded, _ | e⟩, s1⟩
  · rcases hc : loaded.Credentials with _ | creds
    · have := run_load_failure env region assumeRole profile s (Or.inr (by rw [hl]; exact hc))
      rw [hok] at this
      exact absurd rfl this
    · by_cases hcond : assumeRole = [] ∨ isAssumeRoleProvider creds = true
      · rw [run_no_assume env region assumeRole profile s s1 loaded creds hl hc hcond] at hok
        have h1 := congrArg (fun x => x.1) hok
        have h2 := congrArg (fun x => x.2.2) hok
        simp only at h1 h2
        have hcfg := validate_fst_ok env _ _ _ h1
        subst hcfg
        exact ⟨[ConfigCall.configLoader
          (if profile = [] then [] else [external.Config.WithSharedConfigProfile profile])],
          by rw [← h2]; rfl, by simp, rfl⟩
      · have hr : assumeRole ≠ [] := fun h => hcond (Or.inl h)
        have hp : isAssumeRoleProvider creds = false := by
          cases hb : isAssumeRoleProvider creds
          · rfl
          · exact absurd (Or.inr hb) hcond
        rcases ha : env.AssumeRole (getClientConfig.override loaded region) assumeRole s1
          with ⟨⟨p, _ | e⟩, s2⟩
        · rw [run_assume_ok env region assumeRole profile s s1 s2 loaded creds p hl hc hr hp ha]
            at hok
          have h1 := congrArg (fun x => x.1) hok
          have h2 := congrArg (fun x => x.2.2) hok
          simp only at h1 h2
          have hcfg := validate_fst_ok env _ _ _ h1
          subst hcfg
          exact ⟨[ConfigCall.configLoader
            (if profile = [] then [] else [external.Config.WithSharedConfigProfile profile]),
            ConfigCall.AssumeRole (getClientConfig.override loaded region) assumeRole],
            by rw [← h2]; rfl, by simp, rfl⟩
        · rw [run_assume_error env region assumeRole profile s s1 s2 loaded creds p e hl hc hr hp
            ha] at hok
          simp at hok
  · have := run_load_failure env region assumeRole profile s (Or.inl (by rw [hl]; simp))
    rw [hok] at this
    exact absurd rfl this

end ecr

/-- C14: for every loader, assumer and resolver, whenever `getClientConfig`
succeeds with a non-empty `region` argument the returned configuration carries
that region, whatever region the loader brought; with an empty `region`
argument it carries the loader's region. The resolver is called once, last,
for the service `api.ecr` and the region of the returned configuration. -/
theorem getClientConfig_region_override {σ : Type} (env : ecr.ConfigEnv σ)
    (region assumeRole profile : GoString) (s : σ) (cfg : aws.Config)
    (s' : σ × List ecr.ConfigCall)
    (hok : ecr.getClientConfig env.traced region assumeRole profile (s, []) = ((cfg, none), s')) :
    (region ≠ [] → cfg.Region = region) ∧
    (region = [] → cfg.Region = (ecr.getClientConfig.load env profile s).1.1.Region) ∧
    (∃ pre, s'.2 = pre ++ [ecr.ConfigCall.ResolveEndpoint (ascii "api.ecr") cfg.Region] ∧
      ∀ service r, ecr.ConfigCall.ResolveEndpoint service r ∉ pre) := by
  obtain ⟨pre, h1, h2, h3⟩ := ecr.run_ok_inv env region assumeRole profile s cfg s' hok
  have ho := ecr.override_Region (ecr.getClientConfig.load env profile s).1.1 region
  refine ⟨fun h => h3.trans (ho.1 h), fun h => ?_, pre, h1, h2⟩
  rw [h3, ho.2.1 h]

/-- The test `TestEcrClient_GetClientConfig_RegionFlagUpdatesConfigRegion`: the
loader brings `us-east-1`, the argument is `us-east-2`, the result carries
`us-east-2` and that is the region resolved. -/
theorem getClientConfig_region_override_witness :
    ecr.getClientConfig
        (ecr.mockEnv (⟨ascii "us-east-1", some (.stsCredentialsProvider (some 1)), 0⟩, none)
          (none, none) (fun r => r == ascii "us-east-2")).traced
        (ascii "us-east-2") [] [] ((), [])
      = ((⟨ascii "us-east-2", some (.stsCredentialsProvider (some 1)), 0⟩, none),
          ((), [ecr.ConfigCall.configLoader [],
                ecr.ConfigCall.ResolveEndpoint (ascii "api.ecr") (ascii "us-east-2")])) ∧
    (⟨ascii "us-east-2", some (.stsCredentialsProvider (some 1)), 0⟩ : aws.Config).Region
      = ascii "us-east-2" :=
  ⟨by decide,
   (getClientConfig_region_override
      (ecr.mockEnv (⟨ascii "us-east-1", some (.stsCredentialsProvider (some 1)), 0⟩, none)
        (none, none) (fun r => r == ascii "us-east-2"))
      (ascii "us-east-2") [] [] ()
      ⟨ascii "us-east-2", some (.stsCredentialsProvider (some 1)), 0⟩
      ((), [ecr.ConfigCall.configLoader [],
            ecr.ConfigCall.ResolveEndpoint (ascii "api.ecr") (ascii "us-east-2")])
      (by decide)).1 (by decide)⟩

namespace ecr

theorem validate_of_resolved {σ : Type} (env : ConfigEnv σ) (cfg : aws.Config) (s s2 : σ)
    (h : env.ResolveEndpoint (ascii "api.ecr") cfg.Region s = (none, s2)) :
    getClientConfig.validate env cfg s = ((cfg, none), s2) := by
  simp [getClientConfig.validate, h]

theorem isAssumeRoleProvider_iff (creds : aws.CredentialsProvider) :
    isAssumeRoleProvider creds = true ↔ ∃ id, creds = .AssumeRoleProvider id := by
  cases creds <;> simp [isAssumeRoleProvider]

end ecr

/-- C15: let the loader succeed and bring non-nil credentials. (1) If the role
ARN is empty or the credentials are an `*stscreds.AssumeRoleProvider`,
`AssumeRole` is never called, every configuration returned with a nil error
keeps the loaded credentials, and such a configuration is returned as soon as
the region resolves. (2) Otherwise `AssumeRole` is called exactly once, with
the configuration after the region override and that ARN; when it succeeds,
every configuration returned with a nil error carries the credentials it gave
(and one is returned as soon as the region resolves); when it fails, its error
is returned unchanged with the zero configuration. -/
theorem getClientConfig_role_assumption {σ : Type} (env : ecr.ConfigEnv σ)
    (region assumeRole profile : GoString) (s s1 : σ) (loaded : aws.Config)
    (creds : aws.CredentialsProvider)
    (hl : ecr.getClientConfig.load env profile s = ((loaded, none), s1))
    (hc : loaded.Credentials = some creds) :
    ((assumeRole = [] ∨ ∃ id, creds = .AssumeRoleProvider id) →
      (∀ c a, ecr.ConfigCall.AssumeRole c a ∉
        (ecr.getClientConfig env.traced region assumeRole profile (s, [])).2.2) ∧
      (∀ cfg s', ecr.getClientConfig env.traced region assumeRole profile (s, [])
          = ((cfg, none), s') → cfg.Credentials = some creds) ∧
      (∀ s2, env.ResolveEndpoint (ascii "api.ecr")
          (ecr.getClientConfig.override loaded region).Region s1 = (none, s2) →
        (ecr.getClientConfig env.traced region assumeRole profile (s, [])).1
          = (ecr.getClientConfig.override loaded region, none))) ∧
    ((assumeRole ≠ [] ∧ ∀ id, creds ≠ .AssumeRoleProvider id) →
      (ecr.getClientConfig env.traced region assumeRole profile (s, [])).2.2.filter
          ecr.ConfigCall.isAssumeRole
        = [ecr.ConfigCall.AssumeRole (ecr.getClientConfig.override loaded region) assumeRole] ∧
      (∀ p s2, env.AssumeRole (ecr.getClientConfig.override loaded region) assumeRole s1
          = ((p, none), s2) →
        (∀ cfg s', ecr.getClientConfig env.traced region assumeRole profile (s, [])
            = ((cfg, none), s') → cfg.Credentials = some (.stsCredentialsProvider p)) ∧
        (∀ s3, env.ResolveEndpoint (ascii "api.ecr")
            (ecr.getClientConfig.override loaded region).Region s2 = (none, s3) →
          (ecr.getClientConfig env.traced region assumeRole profile (s, [])).1
            = ({ ecr.getClientConfig.override loaded region with
                  Credentials := some (.stsCredentialsProvider p) }, none))) ∧
      (∀ p e s2, env.AssumeRole (ecr.getClientConfig.override loaded region) assumeRole s1
          = ((p, some e), s2) →
        (ecr.getClientConfig env.traced region assumeRole profile (s, [])).1
          = (aws.Config.zero, some e))) := by
  have ho := ecr.override_Region loaded region
  constructor
  · intro h
    have hcond : assumeRole = [] ∨ ecr.isAssumeRoleProvider creds = true :=
      h.imp id (ecr.isAssumeRoleProvider_iff creds).mpr
    rw [ecr.run_no_assume env region assumeRole profile s s1 loaded creds hl hc hcond]
    refine ⟨?_, ?_, ?_⟩
    · intro c a
      simp
    · intro cfg s' hrun
      have h1 := congrArg (fun x => x.1) hrun
      simp only at h1
      rw [ecr.validate_fst_ok env _ _ _ h1, ho.2.2.1, hc]
    · intro s2 hres
      rw [ecr.validate_of_resolved env _ s1 s2 hres]
  · rintro ⟨hr, hnot⟩
    have hp : ecr.isAssumeRoleProvider creds = false := by
      cases hb : ecr.isAssumeRoleProvider creds
      · rfl
      · obtain ⟨id, hid⟩ := (ecr.isAssumeRoleProvider_iff creds).mp hb
        exact absurd hid (hnot id)
    refine ⟨?_, ?_, ?_⟩
    · rcases ha : env.AssumeRole (ecr.getClientConfig.override loaded region) assumeRole s1
        with ⟨⟨p, _ | e⟩, s2⟩
      · rw [ecr.run_assume_ok env region assumeRole profile s s1 s2 loaded creds p hl hc hr hp ha]
        simp [List.filter, ecr.ConfigCall.isAssumeRole]
      · rw [ecr.run_assume_error env region assumeRole profile s s1 s2 loaded creds p e hl hc hr
          hp ha]
        simp [List.filter, ecr.ConfigCall.isAssumeRole]
    · intro p s2 ha
      rw [ecr.run_assume_ok env region assumeRole profile s s1 s2 loaded creds p hl hc hr hp ha]
      refine ⟨?_, ?_⟩
      · intro cfg s' hrun
        have h1 := congrArg (fun x => x.1) hrun
        simp only at h1
        rw [ecr.validate_fst_ok env _ _ _ h1]
      · intro s3 hres
        rw [ecr.validate_of_resolved env
          { ecr.getClientConfig.override loaded region with
            Credentials := some (.stsCredentialsProvider p) } s2 s3 hres]
    · intro p e s2 ha
      rw [ecr.run_assume_error env region assumeRole profile s s1 s2 loaded creds p e hl hc hr hp
        ha]

/-- The test `TestEcrClient_GetClientConfig_AssumeRoleUpdatesNewCredentials`
(the role `testing` is assumed and its credentials are returned), and loaded
credentials that are already an `*stscreds.AssumeRoleProvider` (kept, with the
same role ARN supplied). -/
theorem getClientConfig_role_assumption_witness :
    (ecr.getClientConfig
        (ecr.mockEnv (⟨ascii "us-east-1", some (.stsCredentialsProvider (some 1)), 0⟩, none)
          (some 2, none) (fun r => r == ascii "us-east-1")).traced
        (ascii "us-east-1") (ascii "testing") [] ((), [])).1
      = (⟨ascii "us-east-1", some (.stsCredentialsProvider (some 2)), 0⟩, none) ∧
    (∀ c a, ecr.ConfigCall.AssumeRole c a ∉
      (ecr.getClientConfig
        (ecr.mockEnv (⟨ascii "us-east-1", some (.AssumeRoleProvider 7), 0⟩, none)
          (some 2, none) (fun r => r == ascii "us-east-1")).traced
        (ascii "us-east-1") (ascii "testing") [] ((), [])).2.2) ∧
    (ecr.getClientConfig
        (ecr.mockEnv (⟨ascii "us-east-1", some (.AssumeRoleProvider 7), 0⟩, none)
          (some 2, none) (fun r => r == ascii "us-east-1")).traced
        (ascii "us-east-1") (ascii "testing") [] ((), [])).1
      = (⟨ascii "us-east-1", some (.AssumeRoleProvider 7), 0⟩, none) :=
  have h1 := (getClientConfig_role_assumption
    (ecr.mockEnv (⟨ascii "us-east-1", some (.stsCredentialsProvider (some 1)), 0⟩, none)
      (some 2, none) (fun r => r == ascii "us-east-1"))
    (ascii "us-east-1") (ascii "testing") [] () ()
    ⟨ascii "us-east-1", some (.stsCredentialsProvider (some 1)), 0⟩
    (.stsCredentialsProvider (some 1)) rfl rfl).2 ⟨by decide, fun id h => by cases h⟩
  have h2 := (getClientConfig_role_assumption
    (ecr.mockEnv (⟨ascii "us-east-1", some (.AssumeRoleProvider 7), 0⟩, none)
      (some 2, none) (fun r => r == ascii "us-east-1"))
    (ascii "us-east-1") (ascii "testing") [] () ()
    ⟨ascii "us-east-1", some (.AssumeRoleProvider 7), 0⟩
    (.AssumeRoleProvider 7) rfl rfl).1 (Or.inr ⟨7, rfl⟩)
  ⟨(h1.2.1 (some 2) () rfl).2 () rfl, h2.1, h2.2.2 () rfl⟩

/-! ## `GetAuthorizationToken` -/

namespace ecr

/-- `extractToken` returns either an error and no value, or a value and no
error. -/
theorem extractToken_shape (token proxyEndpoint : GoString) :
    (∃ e, extractToken token proxyEndpoint = (none, some e)) ∨
    (∃ a, extractToken token proxyEndpoint = (some a, none)) := by
  unfold extractToken
  split
  · exact Or.inl ⟨_, rfl⟩
  · dsimp only
    split
    · exact Or.inl ⟨_, rfl⟩
    · exact Or.inr ⟨_, rfl⟩

/-- What `GetAuthorizationToken` does with a successful response whose first
authorization data element is `⟨token, endpoint⟩`: with both fields nil it
returns `ErrNoTokenOrProxyEndpoint`, with both present it returns what
`extractToken` returns, and with exactly one of them nil it panics. -/
theorem GetAuthorizationToken_cases {σ : Type}
    (Send : σ → (GetAuthorizationTokenResponse × Option Error) × σ) (s s1 : σ)
    (data : AuthorizationData) (more : List AuthorizationData)
    (h : Send s = ((⟨data :: more⟩, none), s1)) :
    (data = ⟨none, none⟩ →
      ecrClient.GetAuthorizationToken Send s = (.ok (none, some ErrNoTokenOrProxyEndpoint), s1)) ∧
    (∀ token proxyEndpoint, data = ⟨some token, some proxyEndpoint⟩ →
      ecrClient.GetAuthorizationToken Send s = (.ok (extractToken token proxyEndpoint), s1)) ∧
    (∀ token, data = ⟨some token, none⟩ →
      ecrClient.GetAuthorizationToken Send s = (.error .nilPointerDereference, s1)) ∧
    (∀ proxyEndpoint, data = ⟨none, some proxyEndpoint⟩ →
      ecrClient.GetAuthorizationToken Send s = (.error .nilPointerDereference, s1)) := by
  refine ⟨?_, ?_, ?_, ?_⟩
  · rintro rfl
    simp [ecrClient.GetAuthorizationToken, h]
  · rintro token proxyEndpoint rfl
    rcases extractToken_shape token proxyEndpoint with ⟨e, he⟩ | ⟨a, he⟩ <;>
      simp [ecrClient.GetAuthorizationToken, h, he]
  · rintro token rfl
    simp [ecrClient.GetAuthorizationToken, h]
  · rintro proxyEndpoint rfl
    simp [ecrClient.GetAuthorizationToken, h]

end ecr

/-- C16 fails on the code: a successful response whose authorization data
carries a token and no proxy endpoint, or a proxy endpoint and no token, makes
`GetAuthorizationToken` panic with a nil pointer dereference (the guard asks for
both to be nil), and a response with an empty `AuthorizationData` makes it
panic with an index out of range. -/
theorem GetAuthorizationToken_panics :
    (ecr.ecrClient.GetAuthorizationToken
        (fun (s : Unit) => ((⟨[⟨some (ascii "QVdTOnB3"), none⟩]⟩, none), s)) ()).1
      = .error .nilPointerDereference ∧
    (ecr.ecrClient.GetAuthorizationToken
        (fun (s : Unit) => ((⟨[⟨none, some (ascii "https://registry")⟩]⟩, none), s)) ()).1
      = .error .nilPointerDereference ∧
    (ecr.ecrClient.GetAuthorizationToken
        (fun (s : Unit) => ((⟨[]⟩, none), s)) ()).1
      = .error .indexOutOfRange ∧
    (ecr.ecrClient.GetAuthorizationToken
        (fun (s : Unit) => ((⟨[⟨none, none⟩]⟩, none), s)) ()).1
      = .ok (none, some ecr.ErrNoTokenOrProxyEndpoint) ∧
    (ecr.ecrClient.GetAuthorizationToken
        (fun (s : Unit) =>
          ((⟨[⟨some (ascii "QVdTOnB3"), some (ascii "https://registry")⟩]⟩, none), s)) ()).1
      = .ok (some ⟨ascii "https://registry", ascii "AWS", ascii "pw"⟩, none) :=
  ⟨rfl, rfl, rfl, rfl, rfl⟩
